import Mathlib

/-!
Shallow embedding of the holder-classification and supply-decomposition engine
(`src/lib/test.ts` — the `AccountTypeClassifier` and the enhanced `SolanaLib` —
and the legacy `src/lib/solanaLib.ts`).

Modelling conventions:
* JS `number` (UI amounts, flows) is embedded as `ℚ` (exact arithmetic);
* JS `bigint` raw token amounts are `Nat`;
* timestamps are `Int` milliseconds since the epoch; `Date.now()` is an
  explicit `now : Int` parameter;
* external providers (chain RPC, Solscan metadata, transfer history) are
  oracle functions passed as arguments;
* JS `string.includes` / `toLowerCase` are modelled on the character lists
  backing `String`.
-/

namespace TokenAudit

/-- JS `String.prototype.toLowerCase` (ASCII case folding on each character). -/
def lowerStr (s : String) : String := ⟨s.data.map Char.toLower⟩

/-- True when the second list of characters occurs at the start of the first. -/
def startsWithL : List Char → List Char → Bool
  | _, [] => true
  | [], _ :: _ => false
  | c :: cs, k :: ks => c == k && startsWithL cs ks

/-- True when the second list of characters occurs anywhere inside the first. -/
def containsSub : List Char → List Char → Bool
  | [], kw => kw.isEmpty
  | c :: cs, kw => startsWithL (c :: cs) kw || containsSub cs kw

/-- JS `hay.includes(kw)` on strings. -/
def strIncludes (hay kw : String) : Bool := containsSub hay.data kw.data

/-- JS `a || b` on two possibly-missing strings (empty strings are falsy). -/
def jsOrStr (a b : Option String) : String :=
  match a with
  | some s => if s = "" then b.getD "" else s
  | none => b.getD ""

/-- A string option that is `none` when the JS value would be falsy
(`undefined` or the empty string). -/
def jsTruthy (a : Option String) : Option String :=
  match a with
  | some s => if s = "" then none else some s
  | none => none

/-- JS `a || b || c` where `a`, `b` are possibly-missing strings and `c` is a
string literal fallback. -/
def jsOr3 (a b : Option String) (c : String) : String :=
  ((jsTruthy a) <|> (jsTruthy b)).getD c

/-- `AccountType` enum of `src/common/constants.ts`. -/
inductive AccountType where
  | cex | dex | defiProtocol | bridge | staking | nftMarketplace | validator
  | programAuthority | marketMaker | whale | botTrader | institutional | unknown
deriving DecidableEq, Repr, Inhabited

/-- Confidence level attached to a classification. -/
inductive Confidence where
  | high | medium | low
deriving DecidableEq, Repr, Inhabited

/-- `WalletCategory` enum of `src/common/constants.ts`. -/
inductive WalletCategory where
  | exchange | foundation | investor | team | community | dex
  | infrastructure | marketMaker
deriving DecidableEq, Repr, Inhabited

/-- `funded_by` provenance record of the Solscan metadata payload. -/
structure SolscanFundedBy where
  funded_by : String
  tx_hash : String
  block_time : Int
deriving DecidableEq, Repr, Inhabited

/-- `SolscanAccountData` of `src/common/interface.ts`: the off-chain metadata
record for one owner address. -/
structure SolscanAccountData where
  account_label : Option String := none
  account_tags : List String := []
  funded_by : Option SolscanFundedBy := none
  active_age : Option Nat := none
deriving DecidableEq, Repr, Inhabited

/-- `AccountClassification` of `src/common/interface.ts`. -/
structure AccountClassification where
  type : AccountType
  confidence : Confidence
  subType : Option String := none
  reasoning : List String := []
deriving DecidableEq, Repr, Inhabited

/-- `AccountTypeClassifier.CEX_LABELS`. -/
def CEX_LABELS : List String :=
  ["binance", "coinbase", "mexc", "okx", "bybit", "kucoin",
   "gate.io", "huobi", "htx", "crypto.com", "kraken", "bitfinex",
   "gemini", "bitstamp", "upbit", "bithumb"]

/-- `AccountTypeClassifier.CEX_TAGS`. -/
def CEX_TAGS : List String := ["cex", "exchange", "centralized_exchange"]

/-- `AccountTypeClassifier.DEX_LABELS`. -/
def DEX_LABELS : List String :=
  ["raydium", "jupiter", "orca", "serum", "mango", "drift",
   "phoenix", "1inch", "uniswap", "sushiswap", "meteora", "meteora dex"]

/-- `AccountTypeClassifier.DEX_TAGS`. -/
def DEX_TAGS : List String := ["dex", "dex_wallet", "aggregator", "amm"]

/-- `AccountTypeClassifier.DEFI_LABELS`. -/
def DEFI_LABELS : List String :=
  ["solend", "kamino", "marginfi", "jet", "francium", "apricot",
   "port", "larix", "tulip", "quarry", "sunny", "saber"]

/-- `AccountTypeClassifier.DEFI_TAGS`. -/
def DEFI_TAGS : List String :=
  ["defi", "lending", "yield_farming", "liquidity_provider", "protocol", "vault"]

/-- `AccountTypeClassifier.BRIDGE_LABELS`. -/
def BRIDGE_LABELS : List String :=
  ["wormhole", "portal", "allbridge", "multichain", "synapse",
   "hop", "across", "stargate"]

/-- `AccountTypeClassifier.BRIDGE_TAGS`. -/
def BRIDGE_TAGS : List String := ["bridge", "cross_chain", "interoperability"]

/-- `AccountTypeClassifier.STAKING_LABELS`. -/
def STAKING_LABELS : List String :=
  ["marinade", "lido", "jito", "blaze", "cogent", "stake_pool"]

/-- `AccountTypeClassifier.STAKING_TAGS`. -/
def STAKING_TAGS : List String :=
  ["staking", "stake_pool", "validator", "liquid_staking"]

/-- `AccountTypeClassifier.NFT_LABELS`. -/
def NFT_LABELS : List String :=
  ["magic eden", "opensea", "solanart", "digitaleyes", "alpha art",
   "solsea", "hyperspace", "tensor", "coral cube"]

/-- `AccountTypeClassifier.NFT_TAGS`. -/
def NFT_TAGS : List String := ["nft", "marketplace", "nft_trader", "collection"]

/-- `AccountTypeClassifier.MM_LABELS`. -/
def MM_LABELS : List String :=
  ["market maker", "mm", "jump", "alameda", "wintermute",
   "galaxy digital", "hudson river", "optiver"]

/-- `AccountTypeClassifier.MM_TAGS`. -/
def MM_TAGS : List String := ["market_maker", "institutional", "prop_trading"]

/-- `AccountTypeClassifier.PROGRAM_KEYWORDS`. -/
def PROGRAM_KEYWORDS : List String :=
  ["authority", "program", "mint", "token program", "system program",
   "metaplex", "anchor", "multisig"]

/-- `AccountTypeClassifier.checkCEX`. -/
def checkCEX (label : String) (tags : List String) : Option AccountClassification :=
  let cexMatches := CEX_LABELS.filter (fun cex => strIncludes label cex)
  let cexTagMatches := tags.filter (fun tag => CEX_TAGS.contains tag)
  if cexMatches.isEmpty && cexTagMatches.isEmpty then none
  else some
    { type := AccountType.cex
      confidence := Confidence.high
      subType := cexMatches.head? <|> cexTagMatches.head?
      reasoning :=
        (if !cexMatches.isEmpty then
          ["Label contains CEX keyword: " ++ cexMatches.headD ""] else []) ++
        (if !cexTagMatches.isEmpty then
          ["Tagged as: " ++ String.intercalate ", " cexTagMatches] else []) }

/-- `AccountTypeClassifier.checkDEX`. -/
def checkDEX (label : String) (tags : List String) : Option AccountClassification :=
  let dexMatches := DEX_LABELS.filter (fun dex => strIncludes label dex)
  let dexTagMatches := tags.filter (fun tag => DEX_TAGS.contains tag)
  if dexMatches.isEmpty && dexTagMatches.isEmpty then none
  else some
    { type := AccountType.dex
      confidence := Confidence.high
      subType := dexMatches.head? <|> dexTagMatches.head?
      reasoning :=
        (if !dexMatches.isEmpty then
          ["Label contains DEX keyword: " ++ dexMatches.headD ""] else []) ++
        (if !dexTagMatches.isEmpty then
          ["Tagged as: " ++ String.intercalate ", " dexTagMatches] else []) }

/-- `AccountTypeClassifier.checkBridge`. -/
def checkBridge (label : String) (tags : List String) : Option AccountClassification :=
  let bridgeMatches := BRIDGE_LABELS.filter (fun bridge => strIncludes label bridge)
  let bridgeTagMatches := tags.filter (fun tag => BRIDGE_TAGS.contains tag)
  if bridgeMatches.isEmpty && bridgeTagMatches.isEmpty then none
  else some
    { type := AccountType.bridge
      confidence := Confidence.high
      subType := bridgeMatches.head? <|> bridgeTagMatches.head?
      reasoning :=
        (if !bridgeMatches.isEmpty then
          ["Label contains bridge keyword: " ++ bridgeMatches.headD ""] else []) ++
        (if !bridgeTagMatches.isEmpty then
          ["Tagged as: " ++ String.intercalate ", " bridgeTagMatches] else []) }

/-- `AccountTypeClassifier.checkStaking`. -/
def checkStaking (label : String) (tags : List String) : Option AccountClassification :=
  let stakingMatches := STAKING_LABELS.filter (fun staking => strIncludes label staking)
  let stakingTagMatches := tags.filter (fun tag => STAKING_TAGS.contains tag)
  let hasStakeKeyword := strIncludes label "stake" || strIncludes label "validator"
  if !stakingMatches.isEmpty || !stakingTagMatches.isEmpty || hasStakeKeyword then
    some
      { type := AccountType.staking
        confidence :=
          if !stakingMatches.isEmpty || !stakingTagMatches.isEmpty then Confidence.high
          else Confidence.medium
        subType := stakingMatches.head? <|> stakingTagMatches.head?
        reasoning :=
          (if !stakingMatches.isEmpty then
            ["Label contains staking service: " ++ stakingMatches.headD ""] else []) ++
          (if !stakingTagMatches.isEmpty then
            ["Tagged as: " ++ String.intercalate ", " stakingTagMatches] else []) ++
          (if hasStakeKeyword && stakingMatches.isEmpty then
            ["Label contains staking keywords"] else []) }
  else none

/-- `AccountTypeClassifier.checkDeFi`. -/
def checkDeFi (label : String) (tags : List String) : Option AccountClassification :=
  let defiMatches := DEFI_LABELS.filter (fun defi => strIncludes label defi)
  let defiTagMatches := tags.filter (fun tag => DEFI_TAGS.contains tag)
  if defiMatches.isEmpty && defiTagMatches.isEmpty then none
  else some
    { type := AccountType.defiProtocol
      confidence := Confidence.high
      subType := defiMatches.head? <|> defiTagMatches.head?
      reasoning :=
        (if !defiMatches.isEmpty then
          ["Label contains DeFi protocol: " ++ defiMatches.headD ""] else []) ++
        (if !defiTagMatches.isEmpty then
          ["Tagged as: " ++ String.intercalate ", " defiTagMatches] else []) }

/-- `AccountTypeClassifier.checkNFT`. -/
def checkNFT (label : String) (tags : List String) : Option AccountClassification :=
  let nftMatches := NFT_LABELS.filter (fun nft => strIncludes label nft)
  let nftTagMatches := tags.filter (fun tag => NFT_TAGS.contains tag)
  if nftMatches.isEmpty && nftTagMatches.isEmpty then none
  else some
    { type := AccountType.nftMarketplace
      confidence := Confidence.high
      subType := nftMatches.head? <|> nftTagMatches.head?
      reasoning :=
        (if !nftMatches.isEmpty then
          ["Label contains NFT marketplace: " ++ nftMatches.headD ""] else []) ++
        (if !nftTagMatches.isEmpty then
          ["Tagged as: " ++ String.intercalate ", " nftTagMatches] else []) }

/-- `AccountTypeClassifier.checkMarketMaker`. -/
def checkMarketMaker (label : String) (tags : List String) : Option AccountClassification :=
  let mmMatches := MM_LABELS.filter (fun mm => strIncludes label mm)
  let mmTagMatches := tags.filter (fun tag => MM_TAGS.contains tag)
  if mmMatches.isEmpty && mmTagMatches.isEmpty then none
  else some
    { type := AccountType.marketMaker
      confidence := Confidence.high
      subType := mmMatches.head? <|> mmTagMatches.head?
      reasoning :=
        (if !mmMatches.isEmpty then
          ["Label contains market maker: " ++ mmMatches.headD ""] else []) ++
        (if !mmTagMatches.isEmpty then
          ["Tagged as: " ++ String.intercalate ", " mmTagMatches] else []) }

/-- `AccountTypeClassifier.checkProgram`. -/
def checkProgramKw (label : String) (tags : List String) : Option AccountClassification :=
  let programMatches := PROGRAM_KEYWORDS.filter (fun keyword => strIncludes label keyword)
  if !programMatches.isEmpty then
    some
      { type := AccountType.programAuthority
        confidence := Confidence.high
        subType := programMatches.head?
        reasoning := ["Label contains program keywords: " ++
          String.intercalate ", " programMatches] }
  else none

/-- `AccountTypeClassifier.checkValidator`. -/
def checkValidator (label : String) (tags : List String) : Option AccountClassification :=
  let hasValidatorKeyword := strIncludes label "validator" && !(strIncludes label "stake")
  let hasValidatorTag := tags.contains "validator"
  if hasValidatorKeyword || hasValidatorTag then
    some
      { type := AccountType.validator
        confidence := Confidence.high
        subType := none
        reasoning :=
          (if hasValidatorKeyword then ["Label contains validator keyword"] else []) ++
          (if hasValidatorTag then ["Tagged as validator"] else []) }
  else none

/-- `AccountTypeClassifier.checkBehaviorPatterns`. -/
def checkBehaviorPatterns (label : String) (tags : List String) :
    Option AccountClassification :=
  let whaleIndicators : List String := ["whale", "large_holder", "high_volume"]
  let whaleMatches := tags.filter (fun tag => whaleIndicators.contains tag)
  if !whaleMatches.isEmpty then
    some
      { type := AccountType.whale
        confidence := Confidence.medium
        subType := none
        reasoning := ["Tagged with whale indicators: " ++
          String.intercalate ", " whaleMatches] }
  else
    let botIndicators : List String := ["bot", "automated", "high_frequency"]
    let botMatches := tags.filter (fun tag => botIndicators.contains tag)
    if !botMatches.isEmpty then
      some
        { type := AccountType.botTrader
          confidence := Confidence.medium
          subType := none
          reasoning := ["Tagged with bot indicators: " ++
            String.intercalate ", " botMatches] }
    else none

/-- `AccountTypeClassifier.classifyAccount`: the ordered cascade
CEX → DEX → Bridge → Staking → DeFi → NFT → Market maker → Program →
Validator → behavioral → UNKNOWN, where the first matching check wins. -/
def classifyAccount (data : Option SolscanAccountData) : AccountClassification :=
  match data with
  | none =>
    { type := AccountType.unknown
      confidence := Confidence.high
      subType := none
      reasoning := ["No account data available"] }
  | some d =>
    let labelLower := lowerStr (d.account_label.getD "")
    let tagsLower := d.account_tags.map lowerStr
    ((checkCEX labelLower tagsLower) <|>
     (checkDEX labelLower tagsLower) <|>
     (checkBridge labelLower tagsLower) <|>
     (checkStaking labelLower tagsLower) <|>
     (checkDeFi labelLower tagsLower) <|>
     (checkNFT labelLower tagsLower) <|>
     (checkMarketMaker labelLower tagsLower) <|>
     (checkProgramKw labelLower tagsLower) <|>
     (checkValidator labelLower tagsLower) <|>
     (checkBehaviorPatterns labelLower tagsLower)).getD
      { type := AccountType.unknown
        confidence := Confidence.high
        subType := none
        reasoning :=
          if d.account_label.getD "" ≠ "" ∨ 0 < d.account_tags.length then
            ["Labeled entity but type could not be determined"]
          else ["No identifying information available"] }

/-- `SolanaLib.getSupplyPct`: `Number((balanceRaw * 10000n) / supplyRaw) / 100`
(bigint division truncates; on naturals this is floor division). -/
def getSupplyPct (balanceRaw supplyRaw : Nat) : ℚ :=
  ((balanceRaw * 10000) / supplyRaw : Nat) / 100

/-- One transfer-activity record returned by the history provider
(`block_time` in seconds, `amount` a raw integer, `token_decimals` possibly
absent). -/
structure TransferRecord where
  flow : String
  amount : Nat
  token_decimals : Option Nat := none
  block_time : Int := 0
deriving DecidableEq, Repr, Inhabited

/-- Outcome of one page request against the transfer-history provider:
a successful payload, a `success: false` response, or a thrown network
error (the `axios` call rejecting). -/
inductive PageResult where
  | ok (items : List TransferRecord)
  | err
  | thrown
deriving DecidableEq, Repr, Inhabited

/-- Why the pagination loop of `analyzeWalletHistory` stopped. -/
inductive HaltReason where
  | capReached | apiError | emptyPage | shortPage | caught
deriving DecidableEq, Repr, Inhabited

/-- The `while (allTransfers.length < 1000)` pagination loop of
`SolanaLib.analyzeWalletHistory` (`test.ts`), with page size 100.  A thrown
provider error jumps to the surrounding `catch`, discarding everything
(`caught`); a `success: false` response or an empty page `break`s with the
records accumulated so far.  Lean accepts this as a total function, which is
the termination argument: every continued iteration adds at least 100
records while the guard keeps the length below 1000. -/
def histGo (fetch : Nat → PageResult) (page : Nat) (acc : List TransferRecord) :
    List TransferRecord × HaltReason :=
  if 1000 ≤ acc.length then (acc, HaltReason.capReached)
  else
    match fetch page with
    | PageResult.thrown => ([], HaltReason.caught)
    | PageResult.err => (acc, HaltReason.apiError)
    | PageResult.ok items =>
      if items.length = 0 then (acc, HaltReason.emptyPage)
      else if items.length < 100 then (acc ++ items, HaltReason.shortPage)
      else histGo fetch (page + 1) (acc ++ items)
termination_by 1000 - acc.length
decreasing_by
  simp only [List.length_append]
  omega

/-- `WalletHistorySummary` of `src/common/interface.ts` (timestamps in ms). -/
structure WalletHistorySummary where
  firstTx : Int
  lastTx : Int
  txCount : Nat
  hasSold : Bool
  netFlow : ℚ
  lastOutflowAt : Option Int := none
deriving DecidableEq, Repr, Inhabited

/-- The zero-value summary `analyzeWalletHistory` returns when there is no
data or a thrown error: both timestamps are `new Date()` (now), everything
else zero / false / null. -/
def zeroSummary (now : Int) : WalletHistorySummary :=
  { firstTx := now, lastTx := now, txCount := 0, hasSold := false
    netFlow := 0, lastOutflowAt := none }

/-- The inflow/outflow/last-outflow fold of `analyzeWalletHistory`:
`amtUi = Number(tx.amount) / 10 ** (tx.token_decimals ?? 0)`, `out` flows
feed the outflow accumulator and the max-outflow-time tracker, `in` flows
feed the inflow accumulator. -/
def flowTotals (l : List TransferRecord) : ℚ × ℚ × Option Int :=
  l.foldl
    (fun (s : ℚ × ℚ × Option Int) tx =>
      let dec := tx.token_decimals.getD 0
      let amtUi : ℚ := (tx.amount : ℚ) / 10 ^ dec
      if tx.flow = "out" then
        let t := tx.block_time * 1000
        let last :=
          match s.2.2 with
          | none => some t
          | some u => if u < t then some t else some u
        (s.1, s.2.1 + amtUi, last)
      else if tx.flow = "in" then (s.1 + amtUi, s.2.1, s.2.2)
      else s)
    (0, 0, none)

/-- `SolanaLib.analyzeWalletHistory` (`test.ts`): paginate, then (when any
records were collected) re-sort ascending by block time and reduce to a
`WalletHistorySummary`; on a thrown provider error or an empty collection
return the zero-value summary instead of propagating. -/
def analyzeWalletHistory (fetch : Nat → PageResult) (now : Int) :
    WalletHistorySummary :=
  let r := histGo fetch 1 []
  if r.2 = HaltReason.caught then zeroSummary now
  else
    let allTransfers := r.1
    if allTransfers.length = 0 then zeroSummary now
    else
      let sorted := List.insertionSort
        (fun a b : TransferRecord => a.block_time ≤ b.block_time) allTransfers
      let t := flowTotals sorted
      { firstTx := (sorted.headD default).block_time * 1000
        lastTx := (sorted.getLastD default).block_time * 1000
        txCount := allTransfers.length
        hasSold := decide (0 < t.2.1)
        netFlow := t.1 - t.2.1
        lastOutflowAt := t.2.2 }

/-- `ClassifyWalletContext` of `src/common/interface.ts`; the optional JS
booleans are modelled by their truthiness. -/
structure ClassifyWalletContext where
  accountType : Option AccountType := none
  accountSubType : Option String := none
  classificationConfidence : Option Confidence := none
  isDex : Bool := false
  isCex : Bool := false
deriving DecidableEq, Repr, Inhabited

/-- The high-confidence label switch inside `classifyWallet` (`test.ts`):
CEX → Exchange, DEX → Dex, Bridge/Staking/ProgramAuthority/Validator →
Infrastructure, MarketMaker → MarketMaker; every other type falls through
to the behavioral rules. -/
def highConfCategory : AccountType → Option WalletCategory
  | AccountType.cex => some WalletCategory.exchange
  | AccountType.dex => some WalletCategory.dex
  | AccountType.bridge => some WalletCategory.infrastructure
  | AccountType.staking => some WalletCategory.infrastructure
  | AccountType.programAuthority => some WalletCategory.infrastructure
  | AccountType.validator => some WalletCategory.infrastructure
  | AccountType.marketMaker => some WalletCategory.marketMaker
  | _ => none

/-- The medium-confidence tiebreaker switch inside `classifyWallet`
(`test.ts`): WHALE → Investor when pct ≥ 0.5 else Community,
INSTITUTIONAL / BOT_TRADER → MarketMaker. -/
def medConfCategory (pct : ℚ) : AccountType → Option WalletCategory
  | AccountType.whale =>
    some (if 1/2 ≤ pct then WalletCategory.investor else WalletCategory.community)
  | AccountType.institutional => some WalletCategory.marketMaker
  | AccountType.botTrader => some WalletCategory.marketMaker
  | _ => none

/-- `SolanaLib.classifyWallet` (`test.ts`): high-confidence labels first,
then the legacy `isCex`/`isDex` overrides, then the behavioral rules on
supply percentage / age / activity, then medium-confidence tiebreakers,
defaulting to Community. -/
def classifyWallet (balance : ℚ) (balanceRaw supplyRaw : Nat)
    (history : WalletHistorySummary) (ctx : ClassifyWalletContext)
    (now : Int) : WalletCategory :=
  let highCat : Option WalletCategory :=
    if ctx.classificationConfidence = some Confidence.high then
      ctx.accountType.bind highConfCategory
    else none
  match highCat with
  | some c => c
  | none =>
    if ctx.isCex then WalletCategory.exchange
    else if ctx.isDex then WalletCategory.dex
    else
      let pct := getSupplyPct balanceRaw supplyRaw
      let ageDays : ℚ := ((now - history.firstTx : Int) : ℚ) / (1000 * 60 * 60 * 24)
      if 5 ≤ pct ∧ history.hasSold = false then WalletCategory.foundation
      else if 1 ≤ pct ∧ pct < 5 ∧ history.txCount < 20 ∧ 180 < ageDays then
        WalletCategory.investor
      else if 1/10 ≤ pct ∧ pct < 1 ∧ history.hasSold = false ∧ history.txCount < 50 then
        WalletCategory.team
      else if 1000 < history.txCount ∨ 10000000 < |history.netFlow| then
        WalletCategory.exchange
      else if 100 < history.txCount ∧ |history.netFlow| < balance * (1/10) ∧ 30 < ageDays then
        WalletCategory.marketMaker
      else
        let medCat : Option WalletCategory :=
          if ctx.classificationConfidence = some Confidence.medium then
            ctx.accountType.bind (medConfCategory pct)
          else none
        match medCat with
        | some c => c
        | none => WalletCategory.community

/-- `HolderInfo` of `src/common/interface.ts` (enhanced library). -/
structure HolderInfo where
  tokenAccount : String
  walletAddress : String
  balance : ℚ
  rawBalance : Nat
  decimals : Nat
deriving DecidableEq, Repr, Inhabited

/-- `fundedBy` metadata attached to a `WalletClassification` (`fundedAt`
is `block_time * 1000` milliseconds). -/
structure FundedByMeta where
  address : String
  txHash : String
  fundedAt : Int
deriving DecidableEq, Repr, Inhabited

/-- The `metadata` block of a `WalletClassification` (`test.ts`). -/
structure WalletMeta where
  label : Option String
  owner : String
  tokenAccount : String
  accountType : AccountType
  accountSubType : Option String
  classificationConfidence : Confidence
  classificationReasoning : List String
  accountTags : List String
  activeAgeDays : Option Nat
  fundedBy : Option FundedByMeta
  isDex : Bool
  isCex : Bool
deriving DecidableEq, Repr, Inhabited

/-- `WalletClassification` of `src/common/interface.ts`. -/
structure WalletClassification where
  address : String
  category : WalletCategory
  balance : ℚ
  firstTransactionDate : Int
  lastTransactionDate : Int
  transactionCount : Nat
  hasSold : Bool
  isDiamondHand : Bool
  isLongTermNoOutflow180 : Bool
  metadata : Option WalletMeta
deriving DecidableEq, Repr, Inhabited

/-- Milliseconds in a day (`DAY_MS` in `classifyTokenHolders`). -/
def DAY_MS : ℚ := 24 * 60 * 60 * 1000

/-- One iteration of the per-holder loop of `SolanaLib.classifyTokenHolders`
(`test.ts`): resolve the owner, analyze history, fetch metadata, classify the
account type, classify the wallet category, compute the diamond-hand
(`!hasSold && ageDays >= 90`) and 180-day-no-outflow flags, and assemble the
`WalletClassification`.  The external calls are the `resolveOwner`,
`histOracle` (history summary per owner) and `metaOracle` oracles. -/
def classifyHolder (now : Int) (resolveOwner : String → String)
    (histOracle : String → WalletHistorySummary)
    (metaOracle : String → Option SolscanAccountData)
    (supplyRaw : Nat) (holder : HolderInfo) : WalletClassification :=
  let walletAddress :=
    if holder.walletAddress = "" then resolveOwner holder.tokenAccount
    else holder.walletAddress
  let history := histOracle walletAddress
  let ownerMetadata := metaOracle walletAddress
  let classification := classifyAccount ownerMetadata
  let category := classifyWallet holder.balance holder.rawBalance supplyRaw history
    { accountType := some classification.type
      accountSubType := classification.subType
      classificationConfidence := some classification.confidence
      isDex := decide (classification.type = AccountType.dex)
      isCex := decide (classification.type = AccountType.cex) } now
  let ageDays : ℚ := ((now - history.firstTx : Int) : ℚ) / DAY_MS
  let isDiamondHand := !history.hasSold && decide ((90 : ℚ) ≤ ageDays)
  let isLongTermNoOutflow180 :=
    decide ((180 : ℚ) ≤ ageDays) &&
      (match history.lastOutflowAt with
       | none => true
       | some t => decide (180 * 86400000 ≤ now - t))
  { address := walletAddress
    category := category
    balance := holder.balance
    firstTransactionDate := history.firstTx
    lastTransactionDate := history.lastTx
    transactionCount := history.txCount
    hasSold := history.hasSold
    isDiamondHand := isDiamondHand
    isLongTermNoOutflow180 := isLongTermNoOutflow180
    metadata := some
      { label := ownerMetadata.bind (fun m => m.account_label)
        owner := walletAddress
        tokenAccount := holder.tokenAccount
        accountType := classification.type
        accountSubType := classification.subType
        classificationConfidence := classification.confidence
        classificationReasoning := classification.reasoning
        accountTags := (ownerMetadata.map (fun m => m.account_tags)).getD []
        activeAgeDays := ownerMetadata.bind (fun m => m.active_age)
        fundedBy := (ownerMetadata.bind (fun m => m.funded_by)).map
          (fun f => { address := f.funded_by, txHash := f.tx_hash
                      fundedAt := f.block_time * 1000 })
        isDex := decide (classification.type = AccountType.dex)
        isCex := decide (classification.type = AccountType.cex) } }

/-- `SolanaLib.classifyTokenHolders` (`test.ts`), given the already-fetched
top-holder list: each holder is classified in turn (per-holder errors are
absorbed by the oracles being total). -/
def classifyTokenHolders (now : Int) (resolveOwner : String → String)
    (histOracle : String → WalletHistorySummary)
    (metaOracle : String → Option SolscanAccountData)
    (supplyRaw : Nat) (holders : List HolderInfo) : List WalletClassification :=
  holders.map (classifyHolder now resolveOwner histOracle metaOracle supplyRaw)

/-- `HolderInfo` as produced by the legacy `src/lib/solanaLib.ts`
`getTopHolders` (no separate owner field). -/
structure LegacyHolderInfo where
  address : String
  balance : ℚ
  rawBalance : Nat
  decimals : Nat
deriving DecidableEq, Repr, Inhabited

/-- The classification record produced by the legacy
`solanaLib.ts` `classifyTokenHolders`. -/
structure LegacyWalletClassification where
  address : String
  category : WalletCategory
  balance : ℚ
  firstTransactionDate : Int
  lastTransactionDate : Int
  transactionCount : Nat
  hasSold : Bool
  isDiamondHand : Bool
  label : Option String
deriving DecidableEq, Repr, Inhabited

/-- The legacy `solanaLib.ts` `classifyWallet`: a Solscan label containing an
exchange keyword wins, then the behavioral rules (Foundation, Investor,
Team, behavioral Exchange), defaulting to Community. -/
def legacyClassifyWallet (labelOracle : String → Option String)
    (address : String) (balance : ℚ) (balanceRaw supplyRaw : Nat)
    (history : WalletHistorySummary) (now : Int) : WalletCategory :=
  let solscanLabel := (labelOracle address).getD ""
  let labelHit :=
    solscanLabel ≠ "" ∧
      (strIncludes (lowerStr solscanLabel) "exchange" ||
       strIncludes (lowerStr solscanLabel) "binance" ||
       strIncludes (lowerStr solscanLabel) "coinbase" ||
       strIncludes (lowerStr solscanLabel) "ftx" ||
       strIncludes (lowerStr solscanLabel) "kraken" ||
       strIncludes (lowerStr solscanLabel) "okx") = true
  if labelHit then WalletCategory.exchange
  else
    let pct := getSupplyPct balanceRaw supplyRaw
    let ageDays : ℚ := ((now - history.firstTx : Int) : ℚ) / (1000 * 60 * 60 * 24)
    if 5 ≤ pct ∧ history.hasSold = false then WalletCategory.foundation
    else if 1 ≤ pct ∧ pct < 5 ∧ history.txCount < 20 ∧ 180 < ageDays then
      WalletCategory.investor
    else if 1/10 ≤ pct ∧ pct < 1 ∧ history.hasSold = false ∧ history.txCount < 50 then
      WalletCategory.team
    else if 1000 < history.txCount ∨ 10000000 < |history.netFlow| then
      WalletCategory.exchange
    else WalletCategory.community

/-- One iteration of the legacy `solanaLib.ts` `classifyTokenHolders` loop;
note its diamond-hand flag is `!hasSold && ageDays > 180` (strictly more
than 180 days — "held for >6 months"), not the 90-day rule of `test.ts`. -/
def legacyClassifyHolder (now : Int)
    (histOracle : String → WalletHistorySummary)
    (labelOracle : String → Option String)
    (supplyRaw : Nat) (holder : LegacyHolderInfo) : LegacyWalletClassification :=
  let history := histOracle holder.address
  let category := legacyClassifyWallet labelOracle holder.address holder.balance
    holder.rawBalance supplyRaw history now
  let ageDays : ℚ := ((now - history.firstTx : Int) : ℚ) / (1000 * 60 * 60 * 24)
  let isDiamondHand := !history.hasSold && decide ((180 : ℚ) < ageDays)
  { address := holder.address
    category := category
    balance := holder.balance
    firstTransactionDate := history.firstTx
    lastTransactionDate := history.lastTx
    transactionCount := history.txCount
    hasSold := history.hasSold
    isDiamondHand := isDiamondHand
    label := labelOracle holder.address }

/-- The legacy `solanaLib.ts` `classifyTokenHolders` over an
already-fetched holder list. -/
def legacyClassifyTokenHolders (now : Int)
    (histOracle : String → WalletHistorySummary)
    (labelOracle : String → Option String)
    (supplyRaw : Nat) (holders : List LegacyHolderInfo) :
    List LegacyWalletClassification :=
  holders.map (legacyClassifyHolder now histOracle labelOracle supplyRaw)

/-- One entry of the `getTokenLargestAccounts` RPC response. -/
structure TokenAmountEntry where
  address : String
  amount : Nat
  decimals : Nat
deriving DecidableEq, Repr, Inhabited

/-- `SolanaLib.getTopHolders` (`test.ts`): filter out zero balances, return
`null` when nothing is left, otherwise enrich each token account with its
resolved owner wallet. -/
def getTopHolders (resolveOwner : String → String)
    (value : List TokenAmountEntry) : Option (List HolderInfo) :=
  let nonEmpty := value.filter (fun e => 0 < e.amount)
  if nonEmpty.length = 0 then none
  else some (nonEmpty.map (fun e =>
    { tokenAccount := e.address
      walletAddress := resolveOwner e.address
      rawBalance := e.amount
      balance := (e.amount : ℚ) / 10 ^ e.decimals
      decimals := e.decimals }))

/-- The legacy `solanaLib.ts` `getTopHolders`: same zero-balance filter and
`null` on an empty remainder, without owner resolution. -/
def legacyGetTopHolders (value : List TokenAmountEntry) :
    Option (List LegacyHolderInfo) :=
  let nonEmpty := value.filter (fun e => 0 < e.amount)
  if nonEmpty.length = 0 then none
  else some (nonEmpty.map (fun e =>
    { address := e.address
      rawBalance := e.amount
      balance := (e.amount : ℚ) / 10 ^ e.decimals
      decimals := e.decimals }))

/-- The `tokenAmount` sub-record of a parsed SPL token account
(`info.tokenAmount?.amount ?? "0"`, `info.tokenAmount?.decimals ?? 0`). -/
structure TokenAmountInfo where
  amount : Option Nat := none
  decimals : Option Nat := none
deriving DecidableEq, Repr, Inhabited

/-- The `parsed.info` block of a parsed SPL token account; `state` /
`accountState` are read with JS `||` fallbacks. -/
structure ParsedAccountInfo where
  owner : String
  state : Option String := none
  accountState : Option String := none
  tokenAmount : Option TokenAmountInfo := none
deriving DecidableEq, Repr, Inhabited

/-- One account returned by the parsed-program-accounts enumeration for the
mint; `info` is `none` when `data.parsed?.info` is absent (skipped by every
consumer). -/
structure ParsedTokenAccount where
  accountPubkey : String
  info : Option ParsedAccountInfo := none
deriving DecidableEq, Repr, Inhabited

/-- Raw amount of a parsed account info (`info.tokenAmount?.amount ?? "0"`). -/
def infoRaw (i : ParsedAccountInfo) : Nat :=
  ((i.tokenAmount.map (fun t => t.amount)).getD none).getD 0

/-- Decimals of a parsed account info (`info.tokenAmount?.decimals ?? 0`). -/
def infoDecimals (i : ParsedAccountInfo) : Nat :=
  ((i.tokenAmount.map (fun t => t.decimals)).getD none).getD 0

/-- UI amount of a parsed account info: `Number(raw) / Math.pow(10, decimals)`. -/
def infoUi (i : ParsedAccountInfo) : ℚ :=
  (infoRaw i : ℚ) / 10 ^ infoDecimals i

/-- `FrozenAccountEntry` of `src/common/constants.ts`. -/
structure FrozenAccountEntry where
  tokenAccount : String
  owner : String
  balance : ℚ
  raw : Nat
  decimals : Nat
deriving DecidableEq, Repr, Inhabited

/-- `SolanaLib.getFrozenSupplyAndAccounts` (`test.ts`), given the enumerated
parsed accounts: sum the UI balances of accounts whose lowercased
`state || accountState` is `"frozen"` and whose UI amount is positive, with
the per-owner frozen map as a function.  (This recursion combines each kept
account with the scan of the remaining accounts; the resulting total,
entry list and map agree with the source's in-order accumulation.) -/
def frozenScan : List ParsedTokenAccount → ℚ × List FrozenAccountEntry × (String → ℚ)
  | [] => (0, [], fun _ => 0)
  | a :: rest =>
    match a.info with
    | none => frozenScan rest
    | some info =>
      let state := lowerStr (jsOrStr info.state info.accountState)
      if state ≠ "frozen" then frozenScan rest
      else
        let raw := infoRaw info
        let dec := infoDecimals info
        let ui := infoUi info
        if ui ≤ 0 then frozenScan rest
        else
          let r := frozenScan rest
          (r.1 + ui,
           { tokenAccount := a.accountPubkey, owner := info.owner
             balance := ui, raw := raw, decimals := dec } :: r.2.1,
           fun x => if x = info.owner then r.2.2 x + ui else r.2.2 x)

/-- `perOwner.set(owner, (perOwner.get(owner) || 0) + ui)` on an
insertion-ordered association list. -/
def addOwnerBal : List (String × ℚ) → String → ℚ → List (String × ℚ)
  | [], o, v => [(o, v)]
  | (k, w) :: t, o, v =>
    if k = o then (k, w + v) :: t else (k, w) :: addOwnerBal t o v

/-- One iteration of the per-owner UI-balance aggregation: a parsed account
with an `info` block and a positive UI amount adds its UI amount to its
owner's entry, anything else is skipped. -/
def aggStep (m : List (String × ℚ)) (a : ParsedTokenAccount) : List (String × ℚ) :=
  match a.info with
  | none => m
  | some info =>
    let ui := infoUi info
    if ui ≤ 0 then m else addOwnerBal m info.owner ui

/-- The per-owner UI-balance aggregation shared by
`estimateLockedByLabelsExcludingFrozen` and `getSupplySplitFull`. -/
def aggregateOwners (accounts : List ParsedTokenAccount) : List (String × ℚ) :=
  accounts.foldl aggStep []

/-- The UI amount one parsed account feeds into the per-owner aggregation
(zero when the account is skipped). -/
def accountContribution (a : ParsedTokenAccount) : ℚ :=
  match a.info with
  | none => 0
  | some info =>
    let ui := infoUi info
    if ui ≤ 0 then 0 else ui

/-- The total of all positive enumerated UI balances: the amount of supply
the aggregation actually sees. -/
def positiveUiSum (accounts : List ParsedTokenAccount) : ℚ :=
  (accounts.map accountContribution).sum

/-- `LabeledOwnerEntry` of `src/common/constants.ts`. -/
structure LabeledOwnerEntry where
  owner : String
  label : Option String
  tags : List String
  balance : ℚ
  frozenPortion : ℚ
  effectiveLocked : ℚ
  matchedBy : String
deriving DecidableEq, Repr, Inhabited

/-- `DEFAULT_LOCK_LABEL_KEYWORDS` of `src/common/constants.ts` (the source
lowercases them; they are already lowercase). -/
def DEFAULT_LOCK_LABEL_KEYWORDS : List String :=
  ["streamflow", "vesting", "timelock", "lock", "escrow", "cliff",
   "unlock schedule", "vsr", "realms", "governance lock"]

/-- The keyword loop of `estimateLockedByLabelsExcludingFrozen`: first
truthy keyword that the haystack contains. -/
def firstLockKeyword (haystack : String) : Option String :=
  (DEFAULT_LOCK_LABEL_KEYWORDS.map lowerStr).find?
    (fun kw => kw ≠ "" && strIncludes haystack kw)

/-- The holder loop of `estimateLockedByLabelsExcludingFrozen` (`test.ts`):
walk the owners sorted by descending balance, `break` at 300 metadata checks
(`MAX_CHECKS`) or below the minimum balance, look up metadata, join the
lowercased label and tags into a haystack, and on a lock-keyword match record
the owner with `effectiveLocked = max(0, balance - frozenPortion)` while
accumulating the effective total. -/
def lockedLoop (metaOracle : String → Option SolscanAccountData)
    (frozenMap : String → ℚ) (minBal : ℚ) :
    List (String × ℚ) → Nat → List LabeledOwnerEntry × ℚ
  | [], _ => ([], 0)
  | (owner, balance) :: rest, checks =>
    if 300 ≤ checks then ([], 0)
    else if balance < minBal then ([], 0)
    else
      let metadata := metaOracle owner
      let label : Option String :=
        jsTruthy ((metadata.map (fun m => m.account_label)).getD none |>.map lowerStr)
      let tags := ((metadata.map (fun m => m.account_tags)).getD []).map lowerStr
      let haystack := String.intercalate " " (label.getD "" :: tags)
      match firstLockKeyword haystack with
      | none => lockedLoop metaOracle frozenMap minBal rest (checks + 1)
      | some matched =>
        let frozenPortion := frozenMap owner
        let effectiveLocked := max 0 (balance - frozenPortion)
        let e : LabeledOwnerEntry :=
          { owner := owner
            label := (metadata.map (fun m => m.account_label)).getD none
            tags := (metadata.map (fun m => m.account_tags)).getD []
            balance := balance
            frozenPortion := frozenPortion
            effectiveLocked := effectiveLocked
            matchedBy := matched }
        let r := lockedLoop metaOracle frozenMap minBal rest (checks + 1)
        (e :: r.1, effectiveLocked + r.2)

/-- `SolanaLib.estimateLockedByLabelsExcludingFrozen` (`test.ts`): aggregate
UI balances per owner, sort descending, and run the lock-keyword loop with
`MIN_BALANCE_FOR_CHECK = totalSupply * 0.0001` (1 bps of supply). -/
def estimateLockedByLabelsExcludingFrozen
    (metaOracle : String → Option SolscanAccountData)
    (accounts : List ParsedTokenAccount)
    (perOwnerFrozenMap : String → ℚ) (totalSupply : ℚ) :
    List LabeledOwnerEntry × ℚ :=
  let perOwner := aggregateOwners accounts
  let MIN_BALANCE_FOR_CHECK := totalSupply * (1 / 10000)
  let holdersSorted :=
    List.insertionSort (fun a b : String × ℚ => b.2 ≤ a.2) perOwner
  lockedLoop metaOracle perOwnerFrozenMap MIN_BALANCE_FOR_CHECK holdersSorted 0

/-- The `components` block of a `LockBreakdown`. -/
structure LockComponents where
  frozen : ℚ
  labeledVesting : ℚ
deriving DecidableEq, Repr, Inhabited

/-- The `details` block of a `LockBreakdown`. -/
structure LockDetails where
  frozenAccounts : List FrozenAccountEntry
  labeledOwners : List LabeledOwnerEntry
deriving DecidableEq, Repr, Inhabited

/-- `LockBreakdown` of `src/common/constants.ts`. -/
structure LockBreakdown where
  totalSupply : ℚ
  lockedTotal : ℚ
  circulating : ℚ
  components : LockComponents
  details : LockDetails
  notes : List String
deriving DecidableEq, Repr, Inhabited

/-- `SolanaLib.getLockBreakdown` (`test.ts`): frozen scan, labeled-vesting
scan excluding the frozen portions, `lockedTotal = frozen + labeled`,
`circulating = max(0, totalSupply - lockedTotal)`, detail lists sorted
descending. -/
def getLockBreakdown (metaOracle : String → Option SolscanAccountData)
    (accounts : List ParsedTokenAccount) (supply : ℚ) : LockBreakdown :=
  let fr := frozenScan accounts
  let totalFrozen := fr.1
  let frozenEntries := fr.2.1
  let perOwnerFrozenMap := fr.2.2
  let est := estimateLockedByLabelsExcludingFrozen metaOracle accounts
    perOwnerFrozenMap supply
  let labeledOwners := est.1
  let labeledTotalEffective := est.2
  let lockedTotal := totalFrozen + labeledTotalEffective
  let circulating := max 0 (supply - lockedTotal)
  { totalSupply := supply
    lockedTotal := lockedTotal
    circulating := circulating
    components := { frozen := totalFrozen, labeledVesting := labeledTotalEffective }
    details :=
      { frozenAccounts :=
          List.insertionSort (fun a b : FrozenAccountEntry => b.balance ≤ a.balance)
            frozenEntries
        labeledOwners :=
          List.insertionSort
            (fun a b : LabeledOwnerEntry => b.effectiveLocked ≤ a.effectiveLocked)
            labeledOwners }
    notes :=
      ["Frozen = token accounts with state=frozen (on-chain enforced).",
       "LabeledVesting = owners whose Solscan label/tags match vesting/lock keywords; frozen portion excluded to prevent double-count.",
       "This heuristic will miss bespoke vesting contracts unless their owners are labeled (configure CONFIG.LOCK_LABEL_KEYWORDS or add program-specific parsers)."] }

/-- Render a confidence level the way the JS template literal does. -/
def confStr : Confidence → String
  | Confidence.high => "high"
  | Confidence.medium => "medium"
  | Confidence.low => "low"

/-- Render a possibly-undefined confidence level the way a JS template
literal does (`undefined` stringifies). -/
def confOptStr : Option Confidence → String
  | some c => confStr c
  | none => "undefined"

/-- Accumulator of the owner loop of `getSupplySplitFull`. -/
structure FullSplitState where
  cex : ℚ := 0
  dex : ℚ := 0
  onchain : ℚ := 0
  breakdownCex : List (String × ℚ) := []
  primaryDexName : Option String := none
  largestDexBalance : ℚ := 0
  metadataChecks : Nat := 0
deriving DecidableEq, Repr, Inhabited

/-- One iteration of the owner loop of `SolanaLib.getSupplySplitFull`
(`test.ts`): look up metadata only while fewer than `MAX_METADATA_CHECKS =
300` lookups have happened and the balance is at least
`MIN_BALANCE_FOR_CHECK = supply * 0.0001`, classify, and route the owner's
whole balance into the CEX, DEX or on-chain bucket.  (The metadata cache of
the source never hits because owners are unique after aggregation, so it is
not modelled.) -/
def fullSplitStep (metaOracle : String → Option SolscanAccountData) (supply : ℚ)
    (st : FullSplitState) (h : String × ℚ) : FullSplitState :=
  let owner := h.1
  let balance := h.2
  let shouldCheckMetadata :=
    st.metadataChecks < 300 ∧ supply * (1 / 10000) ≤ balance
  let ownerMetadata := if shouldCheckMetadata then metaOracle owner else none
  let checks :=
    if shouldCheckMetadata then st.metadataChecks + 1 else st.metadataChecks
  let classification := classifyAccount ownerMetadata
  match classification.type with
  | AccountType.cex =>
    let breakdownKey := jsOr3
      (((ownerMetadata.map (fun m => m.account_label)).getD none).map lowerStr)
      classification.subType "exchange (unknown)"
    let keyWithConfidence :=
      if classification.confidence ≠ Confidence.high then
        breakdownKey ++ " [" ++ confStr classification.confidence ++ "]"
      else breakdownKey
    { st with cex := st.cex + balance
              breakdownCex := addOwnerBal st.breakdownCex keyWithConfidence balance
              metadataChecks := checks }
  | AccountType.dex =>
    if st.largestDexBalance < balance then
      { st with dex := st.dex + balance
                largestDexBalance := balance
                primaryDexName := some (jsOr3
                  (((ownerMetadata.map (fun m => m.account_label)).getD none).map lowerStr)
                  classification.subType "dex (unknown)")
                metadataChecks := checks }
    else { st with dex := st.dex + balance, metadataChecks := checks }
  | _ => { st with onchain := st.onchain + balance, metadataChecks := checks }

/-- Result record of `getSupplySplitFull` (`basis: "full"`; no unknown
bucket field exists). -/
structure SupplySplitFull where
  basis : String
  totalSupply : ℚ
  cex : ℚ
  dex : ℚ
  onchainNonCexDex : ℚ
  cexPctOfTotal : ℚ
  dexPctOfTotal : ℚ
  onchainNonCexDexPctOfTotal : ℚ
  breakdownByExchange : List (String × ℚ)
  dexName : Option String
deriving DecidableEq, Repr, Inhabited

/-- `SolanaLib.getSupplySplitFull` (`test.ts`): enumerate the parsed token
accounts of the mint under the standard token program (this routine queries
only `TOKEN_PROGRAM_ID`), aggregate positive UI balances per owner, sort
owners descending, and classify each owner into CEX / DEX / on-chain. -/
def getSupplySplitFull (metaOracle : String → Option SolscanAccountData)
    (accounts : List ParsedTokenAccount) (supply : ℚ) : SupplySplitFull :=
  let perOwner := aggregateOwners accounts
  let ownersSorted :=
    List.insertionSort (fun a b : String × ℚ => b.2 ≤ a.2) perOwner
  let st := ownersSorted.foldl (fullSplitStep metaOracle supply) {}
  { basis := "full"
    totalSupply := supply
    cex := st.cex
    dex := st.dex
    onchainNonCexDex := st.onchain
    cexPctOfTotal := st.cex / supply * 100
    dexPctOfTotal := st.dex / supply * 100
    onchainNonCexDexPctOfTotal := st.onchain / supply * 100
    breakdownByExchange := st.breakdownCex
    dexName := st.primaryDexName }

/-- Accumulator of the classification loop of `getSupplySplitTop20`. -/
structure Top20State where
  cex : ℚ := 0
  dex : ℚ := 0
  onchain : ℚ := 0
  breakdownCex : List (String × ℚ) := []
  primaryDexName : Option String := none
  largestDexBalance : ℚ := 0
deriving DecidableEq, Repr, Inhabited

/-- One iteration of the classification loop of
`SolanaLib.getSupplySplitTop20` (`test.ts`): route a classified holder's
balance by its metadata account type — CEX and DEX directly; Bridge,
Staking, Validator, ProgramAuthority and Unknown by behavioral wallet
category; everything else (including absent metadata) to on-chain. -/
def top20Step (st : Top20State) (c : WalletClassification) : Top20State :=
  let balance := c.balance
  let category := c.category
  let accountType := c.metadata.map (fun m => m.accountType)
  let label := ((c.metadata.map (fun m => m.label)).getD none).map lowerStr
  let subType := (c.metadata.map (fun m => m.accountSubType)).getD none
  let confidence := c.metadata.map (fun m => m.classificationConfidence)
  match accountType with
  | some AccountType.cex =>
    let cexKey := jsOr3 label subType "exchange (unknown)"
    let cexKeyWithConfidence :=
      if confidence ≠ some Confidence.high then
        cexKey ++ " [" ++ confOptStr confidence ++ "]"
      else cexKey
    { st with cex := st.cex + balance
              breakdownCex := addOwnerBal st.breakdownCex cexKeyWithConfidence balance }
  | some AccountType.dex =>
    if st.largestDexBalance < balance then
      { st with dex := st.dex + balance
                largestDexBalance := balance
                primaryDexName := some (jsOr3 label subType "dex (unknown)") }
    else { st with dex := st.dex + balance }
  | some AccountType.bridge | some AccountType.staking | some AccountType.validator
  | some AccountType.programAuthority | some AccountType.unknown =>
    if category = WalletCategory.exchange then
      { st with cex := st.cex + balance
                breakdownCex := addOwnerBal st.breakdownCex "exchange (behavioral)" balance }
    else if category = WalletCategory.dex then
      if st.largestDexBalance < balance then
        { st with dex := st.dex + balance
                  largestDexBalance := balance
                  primaryDexName := some "dex (behavioral)" }
      else { st with dex := st.dex + balance }
    else { st with onchain := st.onchain + balance }
  | _ => { st with onchain := st.onchain + balance }

/-- Result record of `getSupplySplitTop20` (`basis: "top20"`). -/
structure SupplySplitTop20 where
  basis : String
  totalSupply : ℚ
  cex : ℚ
  dex : ℚ
  onchainNonCexDex : ℚ
  unknownRemainder : ℚ
  cexPctOfTotal : ℚ
  dexPctOfTotal : ℚ
  onchainNonCexDexPctOfTotal : ℚ
  unknownPctOfTotal : ℚ
  breakdownByExchange : List (String × ℚ)
  dexName : Option String
deriving DecidableEq, Repr, Inhabited

/-- The aggregation core of `SolanaLib.getSupplySplitTop20` (`test.ts`) over
an already-classified holder list:
`unknownRemainder = Math.max(totalSupply - (cex + dex + onchain), 0)`. -/
def getSupplySplitTop20Core (classifications : List WalletClassification)
    (mintSupply : ℚ) : SupplySplitTop20 :=
  let st := classifications.foldl top20Step {}
  let covered := st.cex + st.dex + st.onchain
  let unknownRemainder := max (mintSupply - covered) 0
  { basis := "top20"
    totalSupply := mintSupply
    cex := st.cex
    dex := st.dex
    onchainNonCexDex := st.onchain
    unknownRemainder := unknownRemainder
    cexPctOfTotal := st.cex / mintSupply * 100
    dexPctOfTotal := st.dex / mintSupply * 100
    onchainNonCexDexPctOfTotal := st.onchain / mintSupply * 100
    unknownPctOfTotal := unknownRemainder / mintSupply * 100
    breakdownByExchange := st.breakdownCex
    dexName := st.primaryDexName }

/-- `SolanaLib.getSupplySplitTop20` (`test.ts`): classify the top holders via
`classifyTokenHolders` and aggregate; `mintInfo.supply` is the UI supply
`supplyRaw / 10 ** decimals`. -/
def getSupplySplitTop20 (now : Int) (resolveOwner : String → String)
    (histOracle : String → WalletHistorySummary)
    (metaOracle : String → Option SolscanAccountData)
    (supplyRaw decimals : Nat) (holders : List HolderInfo) : SupplySplitTop20 :=
  let mintSupply : ℚ := (supplyRaw : ℚ) / 10 ^ decimals
  getSupplySplitTop20Core
    (classifyTokenHolders now resolveOwner histOracle metaOracle supplyRaw holders)
    mintSupply

/-! ## Theorems -/

/-- C4: for every balance, supply and history input, when the classification
context carries confidence `high` and account type CEX (whatever its
sub-type and legacy flags), `classifyWallet` returns Exchange: the
high-confidence switch fires before any behavioral rule is consulted. -/
theorem classifyWallet_highConf_cex (balance : ℚ) (balanceRaw supplyRaw : Nat)
    (history : WalletHistorySummary) (subType : Option String)
    (isDexFlag isCexFlag : Bool) (now : Int) :
    classifyWallet balance balanceRaw supplyRaw history
      { accountType := some AccountType.cex
        accountSubType := subType
        classificationConfidence := some Confidence.high
        isDex := isDexFlag
        isCex := isCexFlag } now = WalletCategory.exchange := by
  simp [classifyWallet, highConfCategory]

/-- `checkCEX` succeeds with type CEX as soon as some CEX label keyword
occurs in the label. -/
theorem checkCEX_of_label_keyword (label : String) (tags : List String)
    (h : ∃ kw ∈ CEX_LABELS, strIncludes label kw = true) :
    ∃ r, checkCEX label tags = some r ∧ r.type = AccountType.cex := by
  obtain ⟨kw, hmem, hinc⟩ := h
  have hne : CEX_LABELS.filter (fun cex => strIncludes label cex) ≠ [] :=
    List.ne_nil_of_mem (List.mem_filter.mpr ⟨hmem, hinc⟩)
  unfold checkCEX
  rw [if_neg]
  · exact ⟨_, rfl, rfl⟩
  · simp [List.isEmpty_iff, hne]

/-- C5: for every metadata record whose normalized label contains both a CEX
keyword and a DEX keyword, `classifyAccount` returns type CEX — the cascade
checks CEX before DEX and the first matching check wins. -/
theorem classifyAccount_cex_priority (d : SolscanAccountData)
    (hcex : ∃ kw ∈ CEX_LABELS,
      strIncludes (lowerStr (d.account_label.getD "")) kw = true)
    (hdex : ∃ kw ∈ DEX_LABELS,
      strIncludes (lowerStr (d.account_label.getD "")) kw = true) :
    (classifyAccount (some d)).type = AccountType.cex := by
  obtain ⟨r, hr, hty⟩ := checkCEX_of_label_keyword
    (lowerStr (d.account_label.getD "")) (d.account_tags.map lowerStr) hcex
  simp only [classifyAccount, hr, Option.some_orElse, Option.getD_some]
  exact hty

/-- Witness for C5 at a label carrying both the CEX keyword `binance` and
the DEX keyword `raydium`. -/
theorem classifyAccount_cex_priority_witness :
    (classifyAccount (some
      { account_label := some "Binance Raydium Pool"
        account_tags := [] })).type = AccountType.cex := by
  apply classifyAccount_cex_priority
  · exact ⟨"binance", by decide, by decide⟩
  · exact ⟨"raydium", by decide, by decide⟩

/-- C9: `getSupplyPct b s` (for positive supply `s`) is exactly
`floor(b·10000/s)/100`; it is `100` at `b = s`, `0` at `b = 0`, never
exceeds the true percentage `b/s·100`, underestimates it by less than
`0.01`, and is exactly `0` whenever `b < s/10000`. -/
theorem getSupplyPct_spec (b s : Nat) (hs : 0 < s) :
    getSupplyPct b s = ((b * 10000) / s : Nat) / 100 ∧
    getSupplyPct s s = 100 ∧
    getSupplyPct 0 s = 0 ∧
    getSupplyPct b s ≤ (b : ℚ) / (s : ℚ) * 100 ∧
    (b : ℚ) / (s : ℚ) * 100 - getSupplyPct b s < 1 / 100 ∧
    ((b : ℚ) < (s : ℚ) / 10000 → getSupplyPct b s = 0) := by
  have hsQ : (0 : ℚ) < (s : ℚ) := by exact_mod_cast hs
  have hq : (s : ℚ) * (((b * 10000) / s : Nat) : ℚ) + (((b * 10000) % s : Nat) : ℚ)
      = (b : ℚ) * 10000 := by
    exact_mod_cast Nat.div_add_mod (b * 10000) s
  have hrlt : (((b * 10000) % s : Nat) : ℚ) < (s : ℚ) := by
    exact_mod_cast Nat.mod_lt (b * 10000) hs
  have hrnn : (0 : ℚ) ≤ (((b * 10000) % s : Nat) : ℚ) := by positivity
  refine ⟨rfl, ?_, ?_, ?_, ?_, ?_⟩
  · show (((s * 10000) / s : Nat) : ℚ) / 100 = 100
    rw [Nat.mul_comm, Nat.mul_div_cancel _ hs]
    norm_num
  · show (((0 * 10000) / s : Nat) : ℚ) / 100 = 0
    simp
  · show (((b * 10000) / s : Nat) : ℚ) / 100 ≤ (b : ℚ) / (s : ℚ) * 100
    rw [div_mul_eq_mul_div, div_le_div_iff (by norm_num) hsQ]
    nlinarith
  · show (b : ℚ) / (s : ℚ) * 100 - (((b * 10000) / s : Nat) : ℚ) / 100 < 1 / 100
    rw [div_mul_eq_mul_div, div_sub_div _ _ (ne_of_gt hsQ) (by norm_num),
      div_lt_div_iff (by positivity) (by norm_num)]
    nlinarith
  · intro h
    have hlt : b * 10000 < s := by
      have : (b : ℚ) * 10000 < (s : ℚ) := by
        rw [lt_div_iff (by norm_num)] at h
        exact h
      exact_mod_cast this
    show (((b * 10000) / s : Nat) : ℚ) / 100 = 0
    rw [Nat.div_eq_of_lt hlt]
    norm_num

/-- Witness for C9 at `b = 50`, `s = 200` (a quarter of the supply:
`getSupplyPct = 25`). -/
theorem getSupplyPct_spec_witness :
    getSupplyPct 50 200 = ((50 * 10000) / 200 : Nat) / 100 ∧
    getSupplyPct 200 200 = 100 ∧
    getSupplyPct 0 200 = 0 ∧
    getSupplyPct 50 200 ≤ (50 : ℚ) / (200 : ℚ) * 100 ∧
    (50 : ℚ) / (200 : ℚ) * 100 - getSupplyPct 50 200 < 1 / 100 ∧
    ((50 : ℚ) < (200 : ℚ) / 10000 → getSupplyPct 50 200 = 0) := by
  have h := getSupplyPct_spec 50 200 (by norm_num)
  exact_mod_cast h

/-- C10: both `getTopHolders` implementations drop every zero-balance
account before returning (every returned holder has `rawBalance > 0`),
return `null` exactly when every reported account has zero balance, and
never return an empty list in place of `null`. -/
theorem getTopHolders_spec (resolveOwner : String → String)
    (value : List TokenAmountEntry) :
    ((getTopHolders resolveOwner value).getD []).all
      (fun h => decide (0 < h.rawBalance)) = true ∧
    (getTopHolders resolveOwner value = none ↔
      value.all (fun e => e.amount == 0) = true) ∧
    (((getTopHolders resolveOwner value).getD [] = []) ↔
      getTopHolders resolveOwner value = none) ∧
    ((legacyGetTopHolders value).getD []).all
      (fun h => decide (0 < h.rawBalance)) = true ∧
    (legacyGetTopHolders value = none ↔
      value.all (fun e => e.amount == 0) = true) ∧
    (((legacyGetTopHolders value).getD [] = []) ↔
      legacyGetTopHolders value = none) := by
  have hfilter : (value.filter (fun e => 0 < e.amount) = []) ↔
      (value.all (fun e => e.amount == 0) = true) := by
    rw [List.filter_eq_nil, List.all_eq_true]
    constructor
    · intro h e he
      have := h e he
      simp only [decide_eq_true_eq] at this
      simp only [beq_iff_eq]
      omega
    · intro h e he
      have := h e he
      simp only [beq_iff_eq] at this
      simp only [decide_eq_true_eq]
      omega
  have hallpos : ∀ e ∈ value.filter (fun e => 0 < e.amount), 0 < e.amount := by
    intro e he
    have := (List.mem_filter.mp he).2
    simpa using this
  by_cases hnil : value.filter (fun e => 0 < e.amount) = []
  · have hall := hfilter.mp hnil
    refine ⟨?_, ?_, ?_, ?_, ?_, ?_⟩ <;>
      simp [getTopHolders, legacyGetTopHolders, hnil, hall]
  · have hlen : ¬ ((value.filter (fun e => 0 < e.amount)).length = 0) := by
      simpa [List.length_eq_zero] using hnil
    refine ⟨?_, ?_, ?_, ?_, ?_, ?_⟩
    · simp only [getTopHolders, if_neg hlen, Option.getD_some, List.all_eq_true]
      intro h hmem
      obtain ⟨e, he, rfl⟩ := List.mem_map.mp hmem
      simpa using hallpos e he
    · simp only [getTopHolders, if_neg hlen, reduceCtorEq, false_iff]
      intro hall
      exact hnil (hfilter.mpr hall)
    · simp [getTopHolders, if_neg hlen, hnil]
    · simp only [legacyGetTopHolders, if_neg hlen, Option.getD_some, List.all_eq_true]
      intro h hmem
      obtain ⟨e, he, rfl⟩ := List.mem_map.mp hmem
      simpa using hallpos e he
    · simp only [legacyGetTopHolders, if_neg hlen, reduceCtorEq, false_iff]
      intro hall
      exact hnil (hfilter.mpr hall)
    · simp [legacyGetTopHolders, if_neg hlen, hnil]

/-- Loop invariant of the history pagination: starting from an accumulator
whose length is a multiple of 100 and at most 1000, and a provider whose
successful pages hold at most 100 records, the loop result stays within the
1000-record cap, reaches the cap only with exactly 1000 records, and — when
the provider never fails — halts only because of the cap, a short page or an
empty page. -/
theorem histGo_cap (fetch : Nat → PageResult)
    (hlen : ∀ p l, fetch p = PageResult.ok l → l.length ≤ 100) :
    ∀ page acc, acc.length ≤ 1000 → 100 ∣ acc.length →
      (histGo fetch page acc).1.length ≤ 1000 ∧
      ((histGo fetch page acc).2 = HaltReason.capReached →
        (histGo fetch page acc).1.length = 1000) ∧
      ((∀ p, fetch p ≠ PageResult.err ∧ fetch p ≠ PageResult.thrown) →
        ((histGo fetch page acc).2 = HaltReason.capReached ∨
         (histGo fetch page acc).2 = HaltReason.shortPage ∨
         (histGo fetch page acc).2 = HaltReason.emptyPage)) := by
  intro page acc
  induction page, acc using histGo.induct fetch with
  | case1 page acc hcap =>
    intro hle hdvd
    rw [histGo, if_pos hcap]
    exact ⟨hle, fun _ => le_antisymm hle hcap, fun _ => Or.inl rfl⟩
  | case2 page acc hcap heq =>
    intro hle hdvd
    rw [histGo, if_neg hcap, heq]
    refine ⟨by simp, by simp, fun hok => absurd heq (hok page).2⟩
  | case3 page acc hcap heq =>
    intro hle hdvd
    rw [histGo, if_neg hcap, heq]
    refine ⟨hle, by simp, fun hok => absurd heq (hok page).1⟩
  | case4 page acc hcap items heq hempty =>
    intro hle hdvd
    rw [histGo, if_neg hcap]
    simp only [heq]
    rw [if_pos hempty]
    exact ⟨hle, by simp, fun _ => Or.inr (Or.inr rfl)⟩
  | case5 page acc hcap items heq hempty hshort =>
    intro hle hdvd
    rw [histGo, if_neg hcap]
    simp only [heq]
    rw [if_neg hempty, if_pos hshort]
    have hnotcap : ¬ (1000 ≤ acc.length) := hcap
    have hle9 : acc.length ≤ 900 := by
      obtain ⟨k, hk⟩ := hdvd
      omega
    refine ⟨?_, by simp, fun _ => Or.inr (Or.inl rfl)⟩
    simp only [List.length_append]
    omega
  | case6 page acc hcap items heq hempty hshort ih =>
    intro hle hdvd
    have h100 : items.length = 100 := by
      have := hlen page items heq
      omega
    have hle9 : acc.length ≤ 900 := by
      obtain ⟨k, hk⟩ := hdvd
      omega
    have hstep := ih
      (by simp only [List.length_append]; omega)
      (by simp only [List.length_append]; omega)
    rw [histGo, if_neg hcap]
    simp only [heq]
    rw [if_neg hempty, if_neg hshort]
    exact hstep

/-- C6: the history pagination loop of `analyzeWalletHistory` always
terminates (`histGo` is accepted by Lean as a total function), and — given a
provider that answers every page successfully with at most the requested
100 records — it halts only at a short (or empty) page or at the hard cap,
the cap is hit with exactly 1,000 accumulated records, and the accumulated
record count never exceeds 1,000. -/
theorem analyzeWalletHistory_pagination (fetch : Nat → PageResult)
    (hlen : ∀ p l, fetch p = PageResult.ok l → l.length ≤ 100)
    (hok : ∀ p, fetch p ≠ PageResult.err ∧ fetch p ≠ PageResult.thrown) :
    (histGo fetch 1 []).1.length ≤ 1000 ∧
    ((histGo fetch 1 []).2 = HaltReason.capReached →
      (histGo fetch 1 []).1.length = 1000) ∧
    ((histGo fetch 1 []).2 = HaltReason.capReached ∨
     (histGo fetch 1 []).2 = HaltReason.shortPage ∨
     (histGo fetch 1 []).2 = HaltReason.emptyPage) := by
  have h := histGo_cap fetch hlen 1 [] (by simp) (by simp)
  exact ⟨h.1, h.2.1, h.2.2 hok⟩

/-- Witness for C6: a provider that immediately returns an empty page; the
loop halts there with zero records. -/
theorem analyzeWalletHistory_pagination_witness :
    (histGo (fun _ => PageResult.ok []) 1 []).1.length ≤ 1000 ∧
    ((histGo (fun _ => PageResult.ok []) 1 []).2 = HaltReason.capReached →
      (histGo (fun _ => PageResult.ok []) 1 []).1.length = 1000) ∧
    ((histGo (fun _ => PageResult.ok []) 1 []).2 = HaltReason.capReached ∨
     (histGo (fun _ => PageResult.ok []) 1 []).2 = HaltReason.shortPage ∨
     (histGo (fun _ => PageResult.ok []) 1 []).2 = HaltReason.emptyPage) :=
  analyzeWalletHistory_pagination (fun _ => PageResult.ok [])
    (by intro p l h; cases h; simp)
    (by intro p; simp)

/-- C7 (amended): a thrown provider error at any point of the pagination
makes `analyzeWalletHistory` return the zero-value summary, and a
`success: false` response makes it return the zero-value summary when no
records had been accumulated yet; the analyzer is a total function, so no
failure propagates. -/
theorem analyzeWalletHistory_failure_recovery (fetch : Nat → PageResult)
    (now : Int) :
    ((histGo fetch 1 []).2 = HaltReason.caught →
      analyzeWalletHistory fetch now = zeroSummary now) ∧
    ((histGo fetch 1 []).2 = HaltReason.apiError → (histGo fetch 1 []).1 = [] →
      analyzeWalletHistory fetch now = zeroSummary now) := by
  constructor
  · intro h
    simp [analyzeWalletHistory, h]
  · intro h1 h2
    simp [analyzeWalletHistory, h1, h2]

/-- Witness for C7's amended statement: a provider whose very first page is
a `success: false` response; the analyzer returns the zero summary. -/
theorem analyzeWalletHistory_failure_recovery_witness :
    analyzeWalletHistory (fun _ => PageResult.err) 7 = zeroSummary 7 := by
  have hgo : histGo (fun _ => PageResult.err) 1 [] = ([], HaltReason.apiError) := by
    rw [histGo]
    simp
  exact (analyzeWalletHistory_failure_recovery (fun _ => PageResult.err) 7).2
    (by rw [hgo]) (by rw [hgo])

/-- A sample transfer record for the C7 counterexample. -/
def wRecC7 : TransferRecord :=
  { flow := "in", amount := 1, token_decimals := some 0, block_time := 5 }

/-- A provider whose first page is full (100 records) and whose second page
is a `success: false` response. -/
def wFetchC7 : Nat → PageResult := fun p =>
  if p = 1 then PageResult.ok (List.replicate 100 wRecC7) else PageResult.err

/-- C7 counterexample: with a full first page followed by a non-success
response, the analyzer does NOT return the zero-value summary — it keeps the
100 records already accumulated (`txCount = 100`), refuting the claim that
every provider failure at any point yields the zero-value summary. -/
theorem analyzeWalletHistory_failure_counterexample :
    wFetchC7 2 = PageResult.err ∧
    (analyzeWalletHistory wFetchC7 0).txCount = 100 ∧
    analyzeWalletHistory wFetchC7 0 ≠ zeroSummary 0 := by
  have h2 : histGo wFetchC7 2 (List.replicate 100 wRecC7) =
      (List.replicate 100 wRecC7, HaltReason.apiError) := by
    rw [histGo]
    simp [wFetchC7]
  have h1 : histGo wFetchC7 1 [] =
      (List.replicate 100 wRecC7, HaltReason.apiError) := by
    rw [histGo]
    simpa [wFetchC7] using h2
  have htx : (analyzeWalletHistory wFetchC7 0).txCount = 100 := by
    simp [analyzeWalletHistory, h1]
  refine ⟨by simp [wFetchC7], htx, fun h => ?_⟩
  have := congrArg (fun s => s.txCount) h
  simp [htx, zeroSummary] at this

/-- C8 (amended): the enhanced `classifyTokenHolders` per-holder step
(`test.ts`) sets `isDiamondHand` iff the holder never sold and is at least
90 days old, while the legacy `solanaLib.ts` step sets it iff the holder
never sold and is strictly more than 180 days old. -/
theorem isDiamondHand_flags (now : Int) (resolveOwner : String → String)
    (histOracle : String → WalletHistorySummary)
    (metaOracle : String → Option SolscanAccountData)
    (labelOracle : String → Option String)
    (supplyRaw : Nat) (holder : HolderInfo) (lholder : LegacyHolderInfo) :
    ((classifyHolder now resolveOwner histOracle metaOracle supplyRaw
        holder).isDiamondHand = true ↔
      ((classifyHolder now resolveOwner histOracle metaOracle supplyRaw
          holder).hasSold = false ∧
       (90 : ℚ) ≤ ((now - (classifyHolder now resolveOwner histOracle metaOracle
          supplyRaw holder).firstTransactionDate : Int) : ℚ) / DAY_MS)) ∧
    ((legacyClassifyHolder now histOracle labelOracle supplyRaw
        lholder).isDiamondHand = true ↔
      ((legacyClassifyHolder now histOracle labelOracle supplyRaw
          lholder).hasSold = false ∧
       (180 : ℚ) < ((now - (legacyClassifyHolder now histOracle labelOracle
          supplyRaw lholder).firstTransactionDate : Int) : ℚ) / DAY_MS)) := by
  constructor
  · simp [classifyHolder, DAY_MS, Bool.and_eq_true, Bool.not_eq_true',
      decide_eq_true_iff, and_comm]
  · simp only [legacyClassifyHolder, DAY_MS, Bool.and_eq_true,
      Bool.not_eq_true', decide_eq_true_iff]
    norm_num

/-- The history oracle for the C8 counterexample: one transaction 100 days
before `wNowC8`, never sold. -/
def wHistC8 : String → WalletHistorySummary := fun _ =>
  { firstTx := 0, lastTx := 0, txCount := 1, hasSold := false
    netFlow := 0, lastOutflowAt := none }

/-- The holder for the C8 counterexample. -/
def wHolderC8 : LegacyHolderInfo :=
  { address := "w", balance := 1, rawBalance := 1, decimals := 0 }

/-- `Date.now()` for the C8 counterexample: 100 days after the epoch. -/
def wNowC8 : Int := 100 * 86400000

/-- C8 counterexample: the legacy `solanaLib.ts` `classifyTokenHolders`
(also cited by the claim) classifies a 100-day-old holder that never sold
with `isDiamondHand = false`, although `hasSold = false` and its age
exceeds 90 days — so "isDiamondHand iff never sold and age ≥ 90 days" is
false of that implementation. -/
theorem isDiamondHand_counterexample :
    ((legacyClassifyTokenHolders wNowC8 wHistC8 (fun _ => none) 100
        [wHolderC8]).headD default).hasSold = false ∧
    (90 : ℚ) ≤ ((wNowC8 - ((legacyClassifyTokenHolders wNowC8 wHistC8
        (fun _ => none) 100 [wHolderC8]).headD
        default).firstTransactionDate : Int) : ℚ) / DAY_MS ∧
    ((legacyClassifyTokenHolders wNowC8 wHistC8 (fun _ => none) 100
        [wHolderC8]).headD default).isDiamondHand = false ∧
    ¬ (((legacyClassifyTokenHolders wNowC8 wHistC8 (fun _ => none) 100
          [wHolderC8]).headD default).isDiamondHand = true ↔
        (((legacyClassifyTokenHolders wNowC8 wHistC8 (fun _ => none) 100
            [wHolderC8]).headD default).hasSold = false ∧
         (90 : ℚ) ≤ ((wNowC8 - ((legacyClassifyTokenHolders wNowC8 wHistC8
            (fun _ => none) 100 [wHolderC8]).headD
            default).firstTransactionDate : Int) : ℚ) / DAY_MS)) := by
  have hsold : ((legacyClassifyTokenHolders wNowC8 wHistC8 (fun _ => none) 100
      [wHolderC8]).headD default).hasSold = false := by
    simp [legacyClassifyTokenHolders, legacyClassifyHolder, wHistC8]
  have hfirst : ((legacyClassifyTokenHolders wNowC8 wHistC8 (fun _ => none) 100
      [wHolderC8]).headD default).firstTransactionDate = 0 := by
    simp [legacyClassifyTokenHolders, legacyClassifyHolder, wHistC8]
  have hage : (90 : ℚ) ≤ ((wNowC8 - ((legacyClassifyTokenHolders wNowC8 wHistC8
      (fun _ => none) 100 [wHolderC8]).headD
      default).firstTransactionDate : Int) : ℚ) / DAY_MS := by
    rw [hfirst]
    norm_num [wNowC8, DAY_MS]
  have hflag : ((legacyClassifyTokenHolders wNowC8 wHistC8 (fun _ => none) 100
      [wHolderC8]).headD default).isDiamondHand = false := by
    simp only [legacyClassifyTokenHolders, List.map_cons, List.map_nil,
      List.headD_cons, legacyClassifyHolder, wHistC8, wNowC8]
    simp only [Bool.not_false, Bool.true_and, decide_eq_false_iff_not]
    norm_num
  refine ⟨hsold, hage, hflag, fun h => ?_⟩
  have h2 := h.mpr ⟨hsold, hage⟩
  rw [hflag] at h2
  simp at h2

/-- The per-owner frozen map produced by the frozen scan is pointwise
nonnegative: only positive UI amounts are ever added. -/
theorem frozenScan_map_nonneg (accounts : List ParsedTokenAccount) (x : String) :
    0 ≤ (frozenScan accounts).2.2 x := by
  induction accounts with
  | nil => simp [frozenScan]
  | cons a rest ih =>
    simp only [frozenScan]
    split
    · exact ih
    next info heq =>
      split
      · exact ih
      · split
        · exact ih
        next hui =>
          dsimp only
          split
          · have h1 : 0 < infoUi info := lt_of_not_le hui
            linarith
          · exact ih

/-- `addOwnerBal` keeps every aggregated balance nonnegative when the added
amount is nonnegative. -/
theorem addOwnerBal_nonneg (l : List (String × ℚ)) (o : String) (v : ℚ)
    (hl : ∀ p ∈ l, 0 ≤ p.2) (hv : 0 ≤ v) :
    ∀ p ∈ addOwnerBal l o v, 0 ≤ p.2 := by
  induction l with
  | nil =>
    intro p hp
    simp only [addOwnerBal, List.mem_singleton] at hp
    simp [hp, hv]
  | cons h t ih =>
    rcases h with ⟨k, w⟩
    intro p hp
    by_cases hk : k = o
    · simp only [addOwnerBal, if_pos hk, List.mem_cons] at hp
      rcases hp with rfl | hp
      · have := hl (k, w) (by simp)
        simp only
        linarith
      · exact hl p (List.mem_cons_of_mem _ hp)
    · simp only [addOwnerBal, if_neg hk, List.mem_cons] at hp
      rcases hp with rfl | hp
      · exact hl (k, w) (by simp)
      · exact ih (fun q hq => hl q (List.mem_cons_of_mem _ hq)) p hp

/-- `addOwnerBal` adds exactly the new amount to the total of the
aggregated balances. -/
theorem addOwnerBal_sum (l : List (String × ℚ)) (o : String) (v : ℚ) :
    ((addOwnerBal l o v).map Prod.snd).sum = (l.map Prod.snd).sum + v := by
  induction l with
  | nil => simp [addOwnerBal]
  | cons h t ih =>
    rcases h with ⟨k, w⟩
    by_cases hk : k = o
    · simp only [addOwnerBal, if_pos hk, List.map_cons, List.sum_cons]
      ring
    · simp only [addOwnerBal, if_neg hk, List.map_cons, List.sum_cons, ih]
      ring

/-- One aggregation step keeps every aggregated balance nonnegative. -/
theorem aggStep_nonneg (m : List (String × ℚ)) (a : ParsedTokenAccount)
    (hm : ∀ p ∈ m, 0 ≤ p.2) : ∀ p ∈ aggStep m a, 0 ≤ p.2 := by
  cases ha : a.info with
  | none => simpa [aggStep, ha] using hm
  | some info =>
    by_cases hui : infoUi info ≤ 0
    · simpa [aggStep, ha, hui] using hm
    · simp only [aggStep, ha, if_neg hui]
      exact addOwnerBal_nonneg m info.owner (infoUi info) hm
        (le_of_lt (lt_of_not_le hui))

/-- One aggregation step adds exactly the account's contribution to the
total of the aggregated balances. -/
theorem aggStep_sum (m : List (String × ℚ)) (a : ParsedTokenAccount) :
    ((aggStep m a).map Prod.snd).sum =
      (m.map Prod.snd).sum + accountContribution a := by
  cases ha : a.info with
  | none => simp [aggStep, accountContribution, ha]
  | some info =>
    by_cases hui : infoUi info ≤ 0
    · simp [aggStep, accountContribution, ha, hui]
    · simp [aggStep, accountContribution, ha, hui, addOwnerBal_sum]

/-- Folding the aggregation over a list of accounts keeps balances
nonnegative. -/
theorem aggFold_nonneg (accounts : List ParsedTokenAccount) :
    ∀ m, (∀ p ∈ m, 0 ≤ p.2) → ∀ p ∈ accounts.foldl aggStep m, 0 ≤ p.2 := by
  induction accounts with
  | nil => intro m hm; simpa using hm
  | cons a rest ih =>
    intro m hm
    simp only [List.foldl_cons]
    exact ih _ (aggStep_nonneg m a hm)

/-- Every balance in the per-owner aggregation is nonnegative. -/
theorem aggregateOwners_nonneg (accounts : List ParsedTokenAccount) :
    ∀ p ∈ aggregateOwners accounts, 0 ≤ p.2 :=
  aggFold_nonneg accounts [] (by simp)

/-- Folding the aggregation adds exactly the positive-balance total. -/
theorem aggFold_sum (accounts : List ParsedTokenAccount) :
    ∀ m, ((accounts.foldl aggStep m).map Prod.snd).sum =
      (m.map Prod.snd).sum + positiveUiSum accounts := by
  induction accounts with
  | nil => intro m; simp [positiveUiSum]
  | cons a rest ih =>
    intro m
    simp only [List.foldl_cons, positiveUiSum, List.map_cons, List.sum_cons]
    rw [ih (aggStep m a), aggStep_sum]
    simp only [positiveUiSum]
    ring

/-- The per-owner aggregated balances total exactly the positive enumerated
UI balances. -/
theorem aggregateOwners_sum (accounts : List ParsedTokenAccount) :
    ((aggregateOwners accounts).map Prod.snd).sum = positiveUiSum accounts := by
  simpa using aggFold_sum accounts []

/-- Every entry the labeled-vesting loop records has
`effectiveLocked ∈ [0, balance]`, provided the frozen map is nonnegative and
the walked balances are nonnegative. -/
theorem lockedLoop_entries (metaOracle : String → Option SolscanAccountData)
    (frozenMap : String → ℚ) (minBal : ℚ)
    (hf : ∀ x, 0 ≤ frozenMap x) :
    ∀ (l : List (String × ℚ)) (checks : Nat), (∀ p ∈ l, 0 ≤ p.2) →
      ∀ e ∈ (lockedLoop metaOracle frozenMap minBal l checks).1,
        0 ≤ e.effectiveLocked ∧ e.effectiveLocked ≤ e.balance := by
  intro l
  induction l with
  | nil => intro checks hl e he; simp [lockedLoop] at he
  | cons h t ih =>
    rcases h with ⟨owner, balance⟩
    intro checks hl e he
    have hbal : 0 ≤ balance := hl (owner, balance) (by simp)
    simp only [lockedLoop] at he
    by_cases h300 : 300 ≤ checks
    · simp [if_pos h300] at he
    · rw [if_neg h300] at he
      by_cases hmin : balance < minBal
      · simp [if_pos hmin] at he
      · rw [if_neg hmin] at he
        split at he
        · exact ih (checks + 1) (fun p hp => hl p (List.mem_cons_of_mem _ hp)) e he
        · simp only [List.mem_cons] at he
          rcases he with rfl | he2
          · refine ⟨le_max_left _ _, ?_⟩
            refine max_le hbal ?_
            have := hf owner
            linarith
          · exact ih (checks + 1) (fun p hp => hl p (List.mem_cons_of_mem _ hp)) e he2

/-- The labeled-vesting loop's accumulated total is the sum of the
`effectiveLocked` values of the entries it records. -/
theorem lockedLoop_sum (metaOracle : String → Option SolscanAccountData)
    (frozenMap : String → ℚ) (minBal : ℚ) :
    ∀ (l : List (String × ℚ)) (checks : Nat),
      (lockedLoop metaOracle frozenMap minBal l checks).2 =
        (((lockedLoop metaOracle frozenMap minBal l checks).1).map
          (fun e => e.effectiveLocked)).sum := by
  intro l
  induction l with
  | nil => intro checks; simp [lockedLoop]
  | cons h t ih =>
    rcases h with ⟨owner, balance⟩
    intro checks
    simp only [lockedLoop]
    by_cases h300 : 300 ≤ checks
    · simp [if_pos h300]
    · rw [if_neg h300]
      by_cases hmin : balance < minBal
      · simp [if_pos hmin]
      · rw [if_neg hmin]
        split
        · exact ih (checks + 1)
        · simp only [List.map_cons, List.sum_cons]
          rw [ih (checks + 1)]

/-- C1: in every lock breakdown, every labeled owner's recorded
`effectiveLocked` lies in `[0, balance]`, the reported `lockedTotal` equals
the frozen total plus the sum of all `effectiveLocked` values, and
`circulating = max(0, totalSupply - lockedTotal)`. -/
theorem getLockBreakdown_invariants
    (metaOracle : String → Option SolscanAccountData)
    (accounts : List ParsedTokenAccount) (supply : ℚ) :
    ((getLockBreakdown metaOracle accounts supply).details.labeledOwners.all
      (fun e => decide (0 ≤ e.effectiveLocked) &&
        decide (e.effectiveLocked ≤ e.balance))) = true ∧
    (getLockBreakdown metaOracle accounts supply).lockedTotal =
      (getLockBreakdown metaOracle accounts supply).components.frozen +
        (((getLockBreakdown metaOracle accounts supply).details.labeledOwners).map
          (fun e => e.effectiveLocked)).sum ∧
    (getLockBreakdown metaOracle accounts supply).circulating =
      max 0 (supply - (getLockBreakdown metaOracle accounts supply).lockedTotal) := by
  have hLO : (getLockBreakdown metaOracle accounts supply).details.labeledOwners =
      List.insertionSort (fun a b : LabeledOwnerEntry => b.effectiveLocked ≤ a.effectiveLocked)
        (estimateLockedByLabelsExcludingFrozen metaOracle accounts
          (frozenScan accounts).2.2 supply).1 := rfl
  have hEST : (estimateLockedByLabelsExcludingFrozen metaOracle accounts
      (frozenScan accounts).2.2 supply) =
      lockedLoop metaOracle (frozenScan accounts).2.2 (supply * (1 / 10000))
        (List.insertionSort (fun a b : String × ℚ => b.2 ≤ a.2)
          (aggregateOwners accounts)) 0 := rfl
  have hsortedBal : ∀ p ∈ List.insertionSort (fun a b : String × ℚ => b.2 ≤ a.2)
      (aggregateOwners accounts), 0 ≤ p.2 := by
    intro p hp
    exact aggregateOwners_nonneg accounts p
      ((List.perm_insertionSort _ _).mem_iff.mp hp)
  have hperm : List.Perm
      (List.insertionSort (fun a b : LabeledOwnerEntry => b.effectiveLocked ≤ a.effectiveLocked)
        (estimateLockedByLabelsExcludingFrozen metaOracle accounts
          (frozenScan accounts).2.2 supply).1)
      (estimateLockedByLabelsExcludingFrozen metaOracle accounts
        (frozenScan accounts).2.2 supply).1 :=
    List.perm_insertionSort _ _
  refine ⟨?_, ?_, rfl⟩
  · rw [hLO, List.all_eq_true]
    intro e he
    have hmem : e ∈ (estimateLockedByLabelsExcludingFrozen metaOracle accounts
        (frozenScan accounts).2.2 supply).1 := hperm.mem_iff.mp he
    rw [hEST] at hmem
    have := lockedLoop_entries metaOracle (frozenScan accounts).2.2
      (supply * (1 / 10000)) (frozenScan_map_nonneg accounts) _ 0 hsortedBal e hmem
    simp [this.1, this.2]
  · have hsum : (((getLockBreakdown metaOracle accounts supply).details.labeledOwners).map
        (fun e => e.effectiveLocked)).sum =
        ((estimateLockedByLabelsExcludingFrozen metaOracle accounts
          (frozenScan accounts).2.2 supply).1.map (fun e => e.effectiveLocked)).sum := by
      rw [hLO]
      exact (hperm.map (fun e => e.effectiveLocked)).sum_eq
    rw [hsum]
    show (frozenScan accounts).1 +
        (estimateLockedByLabelsExcludingFrozen metaOracle accounts
          (frozenScan accounts).2.2 supply).2 = _
    rw [hEST, lockedLoop_sum]
    rfl

/-- Frozen token account of the C1 witness scenario: owner `vest` holds
5000 units in a frozen account (spec scenario, section 8). -/
def wFrozenAccC1 : ParsedTokenAccount :=
  { accountPubkey := "fa"
    info := some
      { owner := "vest", state := some "Frozen", accountState := none
        tokenAmount := some { amount := some 5000, decimals := some 0 } } }

/-- Open token account of the C1 witness scenario: the same owner holds
another 15000 units unfrozen. -/
def wOpenAccC1 : ParsedTokenAccount :=
  { accountPubkey := "oa"
    info := some
      { owner := "vest", state := some "initialized", accountState := none
        tokenAmount := some { amount := some 15000, decimals := some 0 } } }

/-- Metadata oracle of the C1 witness scenario: every owner is labeled
"Streamflow Vesting". -/
def wMetaC1 : String → Option SolscanAccountData := fun _ =>
  some { account_label := some "Streamflow Vesting", account_tags := [] }

/-- Frozen scan of the C1 witness scenario: total 5000, one entry, and a
per-owner map charging 5000 to `vest`. -/
theorem wFrozenScanC1 : frozenScan [wFrozenAccC1, wOpenAccC1] =
    (5000,
     [{ tokenAccount := "fa", owner := "vest", balance := 5000, raw := 5000
        decimals := 0 }],
     fun x => if x = "vest" then (5000 : ℚ) else 0) := by
  have hsA : lowerStr (jsOrStr (some "Frozen") none) = "frozen" := by decide
  have hsB : lowerStr (jsOrStr (some "initialized") none) ≠ "frozen" := by decide
  norm_num [frozenScan, wFrozenAccC1, wOpenAccC1, hsA, hsB, infoUi, infoRaw,
    infoDecimals]

/-- Owner aggregation of the C1 witness scenario: `vest` holds 20000. -/
theorem wAggC1 : aggregateOwners [wFrozenAccC1, wOpenAccC1] =
    [("vest", (20000 : ℚ))] := by
  norm_num [aggregateOwners, aggStep, addOwnerBal, wFrozenAccC1, wOpenAccC1,
    infoUi, infoRaw, infoDecimals, List.foldl_cons, List.foldl_nil]

/-- Labeled-vesting estimate of the C1 witness scenario: the owner matches
the `streamflow` keyword and contributes `effectiveLocked = max(0,
20000 - 5000) = 15000`, not 20000. -/
theorem wEstC1 : estimateLockedByLabelsExcludingFrozen wMetaC1
    [wFrozenAccC1, wOpenAccC1] (fun x => if x = "vest" then (5000 : ℚ) else 0)
    1000000 =
    ([{ owner := "vest", label := some "Streamflow Vesting", tags := []
        balance := 20000, frozenPortion := 5000, effectiveLocked := 15000
        matchedBy := "streamflow" }], 15000) := by
  have hlb : jsTruthy (some (lowerStr "Streamflow Vesting")) =
      some "streamflow vesting" := by decide
  have hkw : firstLockKeyword (String.intercalate " " ["streamflow vesting"]) =
      some "streamflow" := by decide
  have hmax : max (0 : ℚ) (20000 - 5000) = 15000 := by
    rw [max_eq_right (by norm_num)]
    norm_num
  norm_num [estimateLockedByLabelsExcludingFrozen, wAggC1, List.insertionSort,
    lockedLoop, wMetaC1, hlb, hkw, hmax]

/-- Witness for C1 on the spec's own scenario (section 8): supply 1,000,000;
owner `vest` labeled "Streamflow Vesting" holds 20,000 of which 5,000 sit in
a frozen account.  The breakdown reports frozen = 5,000, labeledVesting =
15,000 (not 20,000), lockedTotal = 20,000, circulating = 980,000, and the
C1 invariants hold on it. -/
theorem getLockBreakdown_invariants_witness :
    (getLockBreakdown wMetaC1 [wFrozenAccC1, wOpenAccC1] 1000000).components.frozen
      = 5000 ∧
    (getLockBreakdown wMetaC1 [wFrozenAccC1, wOpenAccC1]
      1000000).components.labeledVesting = 15000 ∧
    (getLockBreakdown wMetaC1 [wFrozenAccC1, wOpenAccC1] 1000000).lockedTotal
      = 20000 ∧
    (getLockBreakdown wMetaC1 [wFrozenAccC1, wOpenAccC1] 1000000).circulating
      = 980000 ∧
    ((getLockBreakdown wMetaC1 [wFrozenAccC1, wOpenAccC1]
      1000000).details.labeledOwners.all
        (fun e => decide (0 ≤ e.effectiveLocked) &&
          decide (e.effectiveLocked ≤ e.balance))) = true := by
  have hfm : (frozenScan [wFrozenAccC1, wOpenAccC1]).2.2 =
      fun x => if x = "vest" then (5000 : ℚ) else 0 :=
    congrArg (fun t : ℚ × List FrozenAccountEntry × (String → ℚ) => t.2.2)
      wFrozenScanC1
  have hfr : (getLockBreakdown wMetaC1 [wFrozenAccC1, wOpenAccC1]
      1000000).components.frozen = 5000 :=
    congrArg (fun t : ℚ × List FrozenAccountEntry × (String → ℚ) => t.1)
      wFrozenScanC1
  have hestArg : estimateLockedByLabelsExcludingFrozen wMetaC1
      [wFrozenAccC1, wOpenAccC1] (frozenScan [wFrozenAccC1, wOpenAccC1]).2.2
      1000000 =
      ([{ owner := "vest", label := some "Streamflow Vesting", tags := []
          balance := 20000, frozenPortion := 5000, effectiveLocked := 15000
          matchedBy := "streamflow" }], 15000) := by
    rw [hfm]
    exact wEstC1
  have hlv : (getLockBreakdown wMetaC1 [wFrozenAccC1, wOpenAccC1]
      1000000).components.labeledVesting = 15000 :=
    congrArg (fun t : List LabeledOwnerEntry × ℚ => t.2) hestArg
  have hlt : (getLockBreakdown wMetaC1 [wFrozenAccC1, wOpenAccC1]
      1000000).lockedTotal = 20000 := by
    show (frozenScan [wFrozenAccC1, wOpenAccC1]).1 +
      (estimateLockedByLabelsExcludingFrozen wMetaC1 [wFrozenAccC1, wOpenAccC1]
        (frozenScan [wFrozenAccC1, wOpenAccC1]).2.2 1000000).2 = 20000
    rw [congrArg (fun t : ℚ × List FrozenAccountEntry × (String → ℚ) => t.1)
      wFrozenScanC1, congrArg (fun t : List LabeledOwnerEntry × ℚ => t.2) hestArg]
    norm_num
  have hcirc : (getLockBreakdown wMetaC1 [wFrozenAccC1, wOpenAccC1]
      1000000).circulating = 980000 := by
    have h3 := (getLockBreakdown_invariants wMetaC1 [wFrozenAccC1, wOpenAccC1]
      1000000).2.2
    rw [h3, hlt, max_eq_right (by norm_num)]
    norm_num
  exact ⟨hfr, hlv, hlt, hcirc,
    (getLockBreakdown_invariants wMetaC1 [wFrozenAccC1, wOpenAccC1] 1000000).1⟩

/-- Each full-split iteration adds the owner's whole balance to exactly one
of the three buckets. -/
theorem fullSplitStep_cov (metaOracle : String → Option SolscanAccountData)
    (supply : ℚ) (st : FullSplitState) (h : String × ℚ) :
    (fullSplitStep metaOracle supply st h).cex +
      (fullSplitStep metaOracle supply st h).dex +
      (fullSplitStep metaOracle supply st h).onchain =
    st.cex + st.dex + st.onchain + h.2 := by
  simp only [fullSplitStep]
  split
  · dsimp only
    ring
  · split
    · dsimp only
      ring
    · dsimp only
      ring
  · dsimp only
    ring

/-- Folding the full-split step accumulates exactly the walked balances. -/
theorem fullSplit_foldl_cov (metaOracle : String → Option SolscanAccountData)
    (supply : ℚ) :
    ∀ (l : List (String × ℚ)) (st : FullSplitState),
      (l.foldl (fullSplitStep metaOracle supply) st).cex +
        (l.foldl (fullSplitStep metaOracle supply) st).dex +
        (l.foldl (fullSplitStep metaOracle supply) st).onchain =
      st.cex + st.dex + st.onchain + (l.map Prod.snd).sum := by
  intro l
  induction l with
  | nil => intro st; simp
  | cons h t ih =>
    intro st
    simp only [List.foldl_cons, List.map_cons, List.sum_cons]
    rw [ih (fullSplitStep metaOracle supply st h), fullSplitStep_cov]
    ring

/-- The three full-split buckets always total the positive enumerated
balance sum (every enumerated owner balance lands in exactly one bucket). -/
theorem getSupplySplitFull_cov (metaOracle : String → Option SolscanAccountData)
    (accounts : List ParsedTokenAccount) (supply : ℚ) :
    (getSupplySplitFull metaOracle accounts supply).cex +
      (getSupplySplitFull metaOracle accounts supply).dex +
      (getSupplySplitFull metaOracle accounts supply).onchainNonCexDex =
      positiveUiSum accounts := by
  have hsorted : ((List.insertionSort (fun a b : String × ℚ => b.2 ≤ a.2)
      (aggregateOwners accounts)).map Prod.snd).sum = positiveUiSum accounts := by
    rw [((List.perm_insertionSort (fun a b : String × ℚ => b.2 ≤ a.2)
      (aggregateOwners accounts)).map Prod.snd).sum_eq, aggregateOwners_sum]
  have hcov := fullSplit_foldl_cov metaOracle supply
    (List.insertionSort (fun a b : String × ℚ => b.2 ≤ a.2)
      (aggregateOwners accounts)) {}
  have hfields : (getSupplySplitFull metaOracle accounts supply).cex +
      (getSupplySplitFull metaOracle accounts supply).dex +
      (getSupplySplitFull metaOracle accounts supply).onchainNonCexDex =
      (List.foldl (fullSplitStep metaOracle supply) {}
        (List.insertionSort (fun a b : String × ℚ => b.2 ≤ a.2)
          (aggregateOwners accounts))).cex +
      (List.foldl (fullSplitStep metaOracle supply) {}
        (List.insertionSort (fun a b : String × ℚ => b.2 ≤ a.2)
          (aggregateOwners accounts))).dex +
      (List.foldl (fullSplitStep metaOracle supply) {}
        (List.insertionSort (fun a b : String × ℚ => b.2 ≤ a.2)
          (aggregateOwners accounts))).onchain := rfl
  rw [hfields, hcov, hsorted]
  norm_num

/-- C2 (amended): for every enumerated account list, metadata oracle and
supply, the full split's `cex + dex + onchain` equals the total of the
positive token-account balances enumerated under the standard token program
(each balance in exactly one bucket, no unknown bucket); consequently it
equals `totalSupply` exactly when those balances sum to the supply. -/
theorem getSupplySplitFull_buckets (metaOracle : String → Option SolscanAccountData)
    (accounts : List ParsedTokenAccount) (supply : ℚ) :
    (getSupplySplitFull metaOracle accounts supply).cex +
      (getSupplySplitFull metaOracle accounts supply).dex +
      (getSupplySplitFull metaOracle accounts supply).onchainNonCexDex =
      positiveUiSum accounts ∧
    (positiveUiSum accounts = supply →
      (getSupplySplitFull metaOracle accounts supply).cex +
        (getSupplySplitFull metaOracle accounts supply).dex +
        (getSupplySplitFull metaOracle accounts supply).onchainNonCexDex =
        (getSupplySplitFull metaOracle accounts supply).totalSupply) := by
  refine ⟨getSupplySplitFull_cov metaOracle accounts supply, fun hsup => ?_⟩
  rw [getSupplySplitFull_cov metaOracle accounts supply, hsup]
  rfl

/-- A single token account of the mint: owner `o` holding 1 unit. -/
def wAccC2 : ParsedTokenAccount :=
  { accountPubkey := "t"
    info := some
      { owner := "o", state := some "initialized", accountState := none
        tokenAmount := some { amount := some 1, decimals := some 0 } } }

/-- The enumerated positive balance of the C2 counterexample input is 1. -/
theorem positiveUiSum_wAccC2 : positiveUiSum [wAccC2] = 1 := by
  norm_num [positiveUiSum, accountContribution, wAccC2, infoUi, infoRaw,
    infoDecimals]

/-- C2 counterexample: with one enumerated account holding 1 unit and a mint
supply of 2, the full split yields `cex + dex + onchain = 1 ≠ 2 =
totalSupply` — the claimed identity fails whenever the enumerated balances
do not sum to the supply. -/
theorem getSupplySplitFull_counterexample :
    (getSupplySplitFull (fun _ => none) [wAccC2] 2).cex +
      (getSupplySplitFull (fun _ => none) [wAccC2] 2).dex +
      (getSupplySplitFull (fun _ => none) [wAccC2] 2).onchainNonCexDex ≠
    (getSupplySplitFull (fun _ => none) [wAccC2] 2).totalSupply := by
  rw [getSupplySplitFull_cov (fun _ => none) [wAccC2] 2, positiveUiSum_wAccC2]
  have ht : (getSupplySplitFull (fun _ => none) [wAccC2] 2).totalSupply = 2 := rfl
  rw [ht]
  norm_num

/-- Witness for C2's amended statement: the same single account with a
supply of 1, where the enumerated balances do sum to the supply and the
bucket identity holds. -/
theorem getSupplySplitFull_buckets_witness :
    (getSupplySplitFull (fun _ => none) [wAccC2] 1).cex +
      (getSupplySplitFull (fun _ => none) [wAccC2] 1).dex +
      (getSupplySplitFull (fun _ => none) [wAccC2] 1).onchainNonCexDex =
      (getSupplySplitFull (fun _ => none) [wAccC2] 1).totalSupply := by
  apply (getSupplySplitFull_buckets (fun _ => none) [wAccC2] 1).2
  norm_num [positiveUiSum, accountContribution, wAccC2, infoUi, infoRaw,
    infoDecimals]

/-- C3 (amended): in every bounded (top-N) split, `unknownRemainder ≥ 0`,
and `cex + dex + onchain + unknownRemainder = totalSupply` holds exactly
when the classified balances cover at most the supply
(`cex + dex + onchain ≤ totalSupply`); nothing clamps the covered total, so
the identity fails when the classified balances exceed the supply. -/
theorem getSupplySplitTop20_remainder (classifications : List WalletClassification)
    (mintSupply : ℚ) :
    0 ≤ (getSupplySplitTop20Core classifications mintSupply).unknownRemainder ∧
    ((getSupplySplitTop20Core classifications mintSupply).cex +
       (getSupplySplitTop20Core classifications mintSupply).dex +
       (getSupplySplitTop20Core classifications mintSupply).onchainNonCexDex ≤
         mintSupply →
      (getSupplySplitTop20Core classifications mintSupply).cex +
        (getSupplySplitTop20Core classifications mintSupply).dex +
        (getSupplySplitTop20Core classifications mintSupply).onchainNonCexDex +
        (getSupplySplitTop20Core classifications mintSupply).unknownRemainder =
        (getSupplySplitTop20Core classifications mintSupply).totalSupply) := by
  have hur : (getSupplySplitTop20Core classifications mintSupply).unknownRemainder =
      max (mintSupply - ((classifications.foldl top20Step {}).cex +
        (classifications.foldl top20Step {}).dex +
        (classifications.foldl top20Step {}).onchain)) 0 := rfl
  constructor
  · rw [hur]
    exact le_max_right _ _
  · intro hle
    have hle2 : (classifications.foldl top20Step {}).cex +
        (classifications.foldl top20Step {}).dex +
        (classifications.foldl top20Step {}).onchain ≤ mintSupply := hle
    show (classifications.foldl top20Step {}).cex +
        (classifications.foldl top20Step {}).dex +
        (classifications.foldl top20Step {}).onchain +
        (getSupplySplitTop20Core classifications mintSupply).unknownRemainder =
        mintSupply
    rw [hur, max_eq_left (by linarith)]
    ring

/-- The single top holder of the C3 counterexample: 2 units against a mint
supply of 1. -/
def wHolderC3 : HolderInfo :=
  { tokenAccount := "t", walletAddress := "w", balance := 2, rawBalance := 2
    decimals := 0 }

/-- The history oracle of the C3 counterexample: a holder that has sold. -/
def wHistC3 : String → WalletHistorySummary := fun _ =>
  { firstTx := 0, lastTx := 0, txCount := 0, hasSold := true
    netFlow := 0, lastOutflowAt := none }

/-- The classified C3 counterexample holder carries account type UNKNOWN. -/
theorem wHolderC3_accountType :
    (classifyHolder 0 id wHistC3 (fun _ => none) 1 wHolderC3).metadata.map
      (fun m => m.accountType) = some AccountType.unknown := rfl

/-- The classified C3 counterexample holder lands in category Community. -/
theorem wHolderC3_category :
    (classifyHolder 0 id wHistC3 (fun _ => none) 1 wHolderC3).category =
      WalletCategory.community := by
  norm_num [classifyHolder, classifyWallet, classifyAccount, highConfCategory,
    medConfCategory, getSupplyPct, wHistC3, wHolderC3, DAY_MS]
  simp

/-- C3 counterexample: run the real bounded split on one holder whose
balance (2) exceeds the mint supply (1): the covered total is 2,
`unknownRemainder = max(1 - 2, 0) = 0`, and
`cex + dex + onchain + unknownRemainder = 2 ≠ 1 = totalSupply`. -/
theorem getSupplySplitTop20_counterexample :
    (getSupplySplitTop20 0 id wHistC3 (fun _ => none) 1 0 [wHolderC3]).cex +
      (getSupplySplitTop20 0 id wHistC3 (fun _ => none) 1 0 [wHolderC3]).dex +
      (getSupplySplitTop20 0 id wHistC3 (fun _ => none) 1 0 [wHolderC3]).onchainNonCexDex +
      (getSupplySplitTop20 0 id wHistC3 (fun _ => none) 1 0 [wHolderC3]).unknownRemainder ≠
    (getSupplySplitTop20 0 id wHistC3 (fun _ => none) 1 0 [wHolderC3]).totalSupply := by
  have hbal : (classifyHolder 0 id wHistC3 (fun _ => none) 1 wHolderC3).balance = 2 := rfl
  have hstep : [classifyHolder 0 id wHistC3 (fun _ => none) 1 wHolderC3].foldl
      top20Step {} = { ({} : Top20State) with onchain := 0 + 2 } := by
    simp only [List.foldl_cons, List.foldl_nil, top20Step, wHolderC3_accountType,
      wHolderC3_category, hbal]
    rfl
  have hcex : (getSupplySplitTop20 0 id wHistC3 (fun _ => none) 1 0
      [wHolderC3]).cex = (0 : ℚ) :=
    congrArg (fun st : Top20State => st.cex) hstep
  have hdex : (getSupplySplitTop20 0 id wHistC3 (fun _ => none) 1 0
      [wHolderC3]).dex = (0 : ℚ) :=
    congrArg (fun st : Top20State => st.dex) hstep
  have honc : (getSupplySplitTop20 0 id wHistC3 (fun _ => none) 1 0
      [wHolderC3]).onchainNonCexDex = (0 : ℚ) + 2 :=
    congrArg (fun st : Top20State => st.onchain) hstep
  have hunk : (getSupplySplitTop20 0 id wHistC3 (fun _ => none) 1 0
      [wHolderC3]).unknownRemainder =
      max ((1 : ℚ) / 10 ^ 0 - ((0 : ℚ) + 0 + ((0 : ℚ) + 2))) 0 :=
    congrArg (fun st : Top20State =>
      max ((1 : ℚ) / 10 ^ 0 - (st.cex + st.dex + st.onchain)) 0) hstep
  have htot : (getSupplySplitTop20 0 id wHistC3 (fun _ => none) 1 0
      [wHolderC3]).totalSupply = (1 : ℚ) / 10 ^ 0 := rfl
  rw [hcex, hdex, honc, hunk, htot, max_eq_right (by norm_num)]
  norm_num

/-- Witness for C3's amended statement: an empty classification list against
a supply of 5 — the covered total 0 is at most the supply, so the four
buckets sum to the total supply and the remainder is nonnegative. -/
theorem getSupplySplitTop20_remainder_witness :
    0 ≤ (getSupplySplitTop20Core [] 5).unknownRemainder ∧
    (getSupplySplitTop20Core [] 5).cex + (getSupplySplitTop20Core [] 5).dex +
      (getSupplySplitTop20Core [] 5).onchainNonCexDex +
      (getSupplySplitTop20Core [] 5).unknownRemainder =
      (getSupplySplitTop20Core [] 5).totalSupply := by
  have h := getSupplySplitTop20_remainder [] 5
  refine ⟨h.1, h.2 ?_⟩
  show (0 : ℚ) + 0 + 0 ≤ 5
  norm_num

end TokenAudit
